import Mathlib

/-!
Shallow embedding of the `lkr` knowledge-repository tool (Python) and proofs
about its specification.  Pure Python functions become Lean functions; the
filesystem becomes an explicit association list from paths to file data; the
YAML / front-matter text layer (external libraries `yaml`, `python-frontmatter`)
is modelled as a faithful mapping between file text and a typed
(metadata, body) pair, so serialization and parsing act on typed metadata.
All definitions are translated from the repository sources
(`lkr/models.py`, `lkr/idgen.py`, `lkr/entry.py`, `lkr/repo.py`,
`lkr/validate.py`); definitions whose name starts with `spec_` instead follow
the specification's wording, for comparison against the source-level one.
-/

set_option maxHeartbeats 1000000

instance {ε α : Type} [DecidableEq ε] [DecidableEq α] : DecidableEq (Except ε α) :=
  fun x y =>
    match x, y with
    | .ok a, .ok b =>
      if h : a = b then isTrue (by rw [h]) else isFalse (by simp [h])
    | .error a, .error b =>
      if h : a = b then isTrue (by rw [h]) else isFalse (by simp [h])
    | .ok _, .error _ => isFalse (by simp)
    | .error _, .ok _ => isFalse (by simp)

namespace LKR

/-! ### Python string primitives (ASCII fragment) -/

/-- Python whitespace for `str.strip` / `str.split` (ASCII fragment). -/
def isPySpace (c : Char) : Bool :=
  c.toNat = 32 || c.toNat = 9 || c.toNat = 10 || c.toNat = 13 ||
    c.toNat = 11 || c.toNat = 12

/-- `str.lower` on one character (ASCII fragment: shift A-Z to a-z). -/
def lowerChar (c : Char) : Char :=
  if 65 ≤ c.toNat ∧ c.toNat ≤ 90 then Char.ofNat (c.toNat + 32) else c

/-- Python `str.strip()` on a character list. -/
def pyStrip (l : List Char) : List Char :=
  ((l.dropWhile isPySpace).reverse.dropWhile isPySpace).reverse

/-- Python `str.rstrip()` on a character list. -/
def pyRstrip (l : List Char) : List Char :=
  (l.reverse.dropWhile isPySpace).reverse

/-- `raw.strip().lower()`, the normalization used by `EntryId` and `Tag`. -/
def pyStripLower (s : String) : String :=
  String.mk ((pyStrip s.data).map lowerChar)

/-- Does `hay` start with `needle`? (helper for substring search). -/
def leadsWith : List Char → List Char → Bool
  | [], _ => true
  | _ :: _, [] => false
  | a :: as, b :: bs => a = b && leadsWith as bs

/-- Substring occurrence, Python's `needle in hay`. -/
def occursIn (needle : List Char) : List Char → Bool
  | [] => leadsWith needle []
  | c :: rest => leadsWith needle (c :: rest) || occursIn needle rest

/-- Python `needle in hay` on strings. -/
def strContains (hay needle : String) : Bool :=
  occursIn needle.data hay.data

/-- Does string `s` start with string `p`? -/
def strStarts (p s : String) : Bool :=
  leadsWith p.data s.data

/-- A single-quote character, used to build Python `repr` of plain strings. -/
def squote : String := String.mk [Char.ofNat 39]

/-- Python `repr` of a string containing no quotes or escapes
(every string it is applied to here is of that shape). -/
def pyRepr (s : String) : String := squote ++ s ++ squote

/-! ### Base36 characters and `EntryId` / `Tag` (models.py) -/

/-- A base36 character: digit `0`-`9` or lowercase `a`-`z`
(the character class of `_BASE36_RE` in `models.py`). -/
def base36Char (c : Char) : Bool :=
  (48 ≤ c.toNat && c.toNat ≤ 57) || (97 ≤ c.toNat && c.toNat ≤ 122)

/-- Full match of `_BASE36_RE = ^[0-9a-z]{1,8}$`. -/
def base36Re (s : String) : Bool :=
  1 ≤ s.length && s.length ≤ 8 && s.data.all base36Char

/-- `idgen.is_valid_base36`: nonempty, at most 8 chars, all base36. -/
def is_valid_base36 (s : String) : Bool :=
  !s.isEmpty && s.length ≤ 8 && s.data.all base36Char

/-- Validated base36 ID (`models.EntryId`). -/
structure EntryId where
  value : String
deriving DecidableEq, Repr

/-- `EntryId.__init__`: normalize with `strip().lower()`, then require a
full match of `_BASE36_RE`; `none` models the raised `ValueError`. -/
def EntryId.make (raw : String) : Option EntryId :=
  let v := pyStripLower raw
  if base36Re v then some ⟨v⟩ else none

/-- The `EntryId.prefix` property in the source: first two characters,
used for directory sharding. -/
def EntryId.shard (i : EntryId) : String :=
  String.mk (i.value.data.take 2)

/-- Normalized tag (`models.Tag`). -/
structure Tag where
  value : String
deriving DecidableEq, Repr

/-- `Tag.__init__`: `strip().lower()`, reject empty. -/
def Tag.make (raw : String) : Option Tag :=
  let v := pyStripLower raw
  if v = "" then none else some ⟨v⟩

/-- `models.EntryType` (a `StrEnum`). -/
inductive EntryType
  | q_and_a
  | guide
  | pat
  | note
deriving DecidableEq, Repr

/-- The `.value` string of each `EntryType` member. -/
def EntryType.toStr : EntryType → String
  | .q_and_a => "q-and-a"
  | .guide => "guide"
  | .pat => "pattern"
  | .note => "note"

/-- `EntryType(s)`: string to enum member, `none` for unknown values. -/
def EntryType.ofString (s : String) : Option EntryType :=
  if s = "q-and-a" then some .q_and_a
  else if s = "guide" then some .guide
  else if s = "pattern" then some .pat
  else if s = "note" then some .note
  else none

/-- `models.EntryStatus` (a `StrEnum`). -/
inductive EntryStatus
  | draft
  | reviewed
  | outdated
deriving DecidableEq, Repr

/-- The `.value` string of each `EntryStatus` member. -/
def EntryStatus.toStr : EntryStatus → String
  | .draft => "draft"
  | .reviewed => "reviewed"
  | .outdated => "outdated"

/-- `EntryStatus(s)`: string to enum member. -/
def EntryStatus.ofString (s : String) : Option EntryStatus :=
  if s = "draft" then some .draft
  else if s = "reviewed" then some .reviewed
  else if s = "outdated" then some .outdated
  else none

/-! ### Calendar dates (Python `datetime.date`) -/

/-- A Python `datetime.date` value. -/
structure PyDate where
  year : Nat
  month : Nat
  day : Nat
deriving DecidableEq, Repr

/-- Gregorian leap year. -/
def isLeap (y : Nat) : Bool :=
  y % 4 = 0 && (y % 100 ≠ 0 || y % 400 = 0)

/-- Days in a month of a given year. -/
def daysInMonth (y m : Nat) : Nat :=
  if m = 2 then (if isLeap y then 29 else 28)
  else if m = 4 || m = 6 || m = 9 || m = 11 then 30
  else 31

/-- The range `datetime.date` accepts (year 1..9999, real calendar day). -/
def validDate (d : PyDate) : Bool :=
  1 ≤ d.year && d.year ≤ 9999 && 1 ≤ d.month && d.month ≤ 12 &&
    1 ≤ d.day && d.day ≤ daysInMonth d.year d.month

/-- Decimal digit character. -/
def digitChar : Nat → Char
  | 0 => '0' | 1 => '1' | 2 => '2' | 3 => '3' | 4 => '4'
  | 5 => '5' | 6 => '6' | 7 => '7' | 8 => '8' | 9 => '9'
  | _ => '0'

/-- Numeric value of a decimal digit character. -/
def digitVal (c : Char) : Nat := c.toNat - 48

/-- Is `c` a decimal digit? -/
def isDigitCh (c : Char) : Bool := 48 ≤ c.toNat && c.toNat ≤ 57

/-- Two-digit zero-padded field of `date.isoformat`. -/
def pad2 (n : Nat) : List Char := [digitChar (n / 10 % 10), digitChar (n % 10)]

/-- Four-digit zero-padded year of `date.isoformat`. -/
def pad4 (n : Nat) : List Char :=
  [digitChar (n / 1000 % 10), digitChar (n / 100 % 10),
   digitChar (n / 10 % 10), digitChar (n % 10)]

/-- `date.isoformat()`: `YYYY-MM-DD`. -/
def toIso (d : PyDate) : String :=
  String.mk (pad4 d.year ++ '-' :: (pad2 d.month ++ '-' :: pad2 d.day))

/-- `date.fromisoformat` on the canonical `YYYY-MM-DD` form; rejects
out-of-range calendar components as the Python constructor does. -/
def fromIso (s : String) : Option PyDate :=
  match s.data with
  | [y1, y2, y3, y4, h1, m1, m2, h2, d1, d2] =>
    if h1 = '-' ∧ h2 = '-' ∧ isDigitCh y1 ∧ isDigitCh y2 ∧ isDigitCh y3 ∧
        isDigitCh y4 ∧ isDigitCh m1 ∧ isDigitCh m2 ∧ isDigitCh d1 ∧
        isDigitCh d2 then
      let d : PyDate :=
        ⟨digitVal y1 * 1000 + digitVal y2 * 100 + digitVal y3 * 10 + digitVal y4,
         digitVal m1 * 10 + digitVal m2, digitVal d1 * 10 + digitVal d2⟩
      if validDate d then some d else none
    else none
  | _ => none

/-- Days before month `m` in year `y`. -/
def daysBeforeMonth (y m : Nat) : Nat :=
  (List.range m).foldl (fun acc k => if 1 ≤ k then acc + daysInMonth y k else acc) 0

/-- `date.toordinal()`: proleptic Gregorian ordinal (rata die). -/
def dateOrdinal (d : PyDate) : Nat :=
  365 * (d.year - 1) + (d.year - 1) / 4 - (d.year - 1) / 100 +
    (d.year - 1) / 400 + daysBeforeMonth d.year d.month + d.day

/-- `(a - b).days` for two dates, as in the staleness checks. -/
def dateDiff (a b : PyDate) : Int :=
  (dateOrdinal a : Int) - (dateOrdinal b : Int)

/-! ### Base36 codec (idgen.py) -/

/-- `_ALPHABET = string.digits + string.ascii_lowercase`. -/
def ALPHABET : List Char := "0123456789abcdefghijklmnopqrstuvwxyz".data

/-- The digit-emitting loop of `encode_base36` (digits least-significant
first; the source accumulates then reverses). -/
def encodeGo : Nat → List Char
  | 0 => []
  | n + 1 => ALPHABET.getD ((n + 1) % 36) '0' :: encodeGo ((n + 1) / 36)
  decreasing_by exact Nat.div_lt_self (Nat.succ_pos n) (by omega)

/-- `idgen.encode_base36`: rejects negatives with a `ValueError`,
maps 0 to `"0"`, otherwise emits base36 digits most-significant first. -/
def encode_base36 (n : Int) : Except String String :=
  if n < 0 then .error "Cannot encode negative number"
  else if n = 0 then .ok "0"
  else .ok (String.mk (encodeGo n.toNat).reverse)

/-- Value of one base36 digit as accepted by Python `int(s, 36)`
(case-insensitive). -/
def digit36Val (c : Char) : Option Nat :=
  if 48 ≤ c.toNat ∧ c.toNat ≤ 57 then some (c.toNat - 48)
  else if 97 ≤ c.toNat ∧ c.toNat ≤ 122 then some (c.toNat - 87)
  else if 65 ≤ c.toNat ∧ c.toNat ≤ 90 then some (c.toNat - 55)
  else none

/-- Accumulating digit fold of `int(s, 36)`. -/
def decodeDigits (a : Nat) : List Char → Option Nat
  | [] => some a
  | c :: rest =>
    match digit36Val c with
    | some d => decodeDigits (a * 36 + d) rest
    | none => none

/-- `idgen.decode_base36`, i.e. `int(s, 36)` on a plain digit string
(no sign, no surrounding whitespace — the only shapes reached here). -/
def decode_base36 (s : String) : Option Nat :=
  match s.data with
  | [] => none
  | l => decodeDigits 0 l

/-- Python `str.ljust(w, fill)` on a character list. -/
def pyLjust (l : List Char) (w : Nat) (fill : Char) : List Char :=
  l ++ List.replicate (w - l.length) fill

/-- `idgen.generate_id`, parametrized by the 5-byte random draw `n`
(`int.from_bytes(secrets.token_bytes(5))`, so `n < 2^40`):
`encode_base36(n).ljust(8, "0")[:8]` passed to the `EntryId` constructor. -/
def generate_id (n : Nat) : Option EntryId :=
  match encode_base36 (n : Int) with
  | .error _ => none
  | .ok s => EntryId.make (String.mk ((pyLjust s.data 8 '0').take 8))

/-! ### Front matter, entries and the parsing boundary (models.py, entry.py)

A YAML metadata value as it occurs in an entry file written by
`serialize_entry`: a scalar string, a list of strings, or a
string-to-string mapping. -/

inductive MVal
  | str (s : String)
  | list (l : List String)
  | map (m : List (String × String))
deriving DecidableEq, Repr

/-- `models.EntryFrontMatter`. -/
structure EntryFrontMatter where
  id : EntryId
  title : String
  type : EntryType
  tags : List Tag
  created : PyDate
  updated : Option PyDate := none
  status : Option EntryStatus := none
  difficulty : Option String := none
  author : Option String := none
  related : Option (List EntryId) := none
  source : Option (List (String × String)) := none
deriving DecidableEq, Repr

/-- `models.Entry`: front matter, raw body, optional on-disk path. -/
structure Entry where
  front_matter : EntryFrontMatter
  body : String
  source_path : Option String := none
deriving DecidableEq, Repr

/-- Association-list lookup by string key (models `dict` lookup and
`frontmatter` metadata access). -/
def lookupStr {α : Type} (k : String) : List (String × α) → Option α
  | [] => none
  | (k', v) :: rest => if k' = k then some v else lookupStr k rest

/-- One `if fm.x is not None: metadata["key"] = f(x)` block of
`serialize_entry`. -/
def optEntry {α : Type} (key : String) (f : α → MVal) (o : Option α) :
    List (String × MVal) :=
  match o with
  | none => []
  | some x => [(key, f x)]

/-- The `if fm.related:` block of `serialize_entry` — Python TRUTHINESS,
so both `None` and the empty list are omitted. -/
def relEntry (o : Option (List EntryId)) : List (String × MVal) :=
  match o with
  | none => []
  | some l =>
    if l.isEmpty then [] else [("related", MVal.list (l.map EntryId.value))]

/-- The metadata dict built by `entry.serialize_entry`: required fields
always present, optional fields only when set, `related` only when set
AND non-empty. -/
def entryMetadata (fm : EntryFrontMatter) : List (String × MVal) :=
  ("id", .str fm.id.value) ::
  ("title", .str fm.title) ::
  ("type", .str fm.type.toStr) ::
  ("tags", .list (fm.tags.map Tag.value)) ::
  ("created", .str (toIso fm.created)) ::
  (optEntry "updated" (fun d => .str (toIso d)) fm.updated ++
   (optEntry "status" (fun st => .str st.toStr) fm.status ++
    (optEntry "difficulty" MVal.str fm.difficulty ++
     (optEntry "author" MVal.str fm.author ++
      (relEntry fm.related ++
       optEntry "source" MVal.map fm.source)))))

/-- File contents after the front-matter split: metadata plus body. -/
abbrev FileData : Type := (List (String × MVal)) × String

/-- `entry.serialize_entry` (the YAML text emission of the metadata dict
is the external `frontmatter.dumps`; we keep the typed pair). -/
def serialize_entry (e : Entry) : FileData :=
  (entryMetadata e.front_matter, e.body)

/-- The `id` field validator `_parse_id` composed with pydantic's required
check: accepts a string and runs it through the `EntryId` constructor. -/
def getId (md : List (String × MVal)) : Except String EntryId :=
  match lookupStr "id" md with
  | some (.str s) =>
    match EntryId.make s with
    | some i => .ok i
    | none => .error "Invalid entry ID"
  | some _ => .error "Invalid entry ID"
  | none => .error "Field required: id"

/-- The required `title : str` field. -/
def getTitle (md : List (String × MVal)) : Except String String :=
  match lookupStr "title" md with
  | some (.str s) => .ok s
  | some _ => .error "title must be a string"
  | none => .error "Field required: title"

/-- The required `type : EntryType` field (string coerced to the enum). -/
def getType (md : List (String × MVal)) : Except String EntryType :=
  match lookupStr "type" md with
  | some (.str s) =>
    match EntryType.ofString s with
    | some t => .ok t
    | none => .error "invalid entry type"
  | some _ => .error "invalid entry type"
  | none => .error "Field required: type"

/-- Run the `Tag` constructor over every raw tag, failing atomically. -/
def makeTags : List String → Option (List Tag)
  | [] => some []
  | s :: rest =>
    match Tag.make s, makeTags rest with
    | some t, some ts => some (t :: ts)
    | _, _ => none

/-- The `tags` field validator `_parse_tags`: must be a list; each element
through the `Tag` constructor. -/
def getTags (md : List (String × MVal)) : Except String (List Tag) :=
  match lookupStr "tags" md with
  | some (.list l) =>
    match makeTags l with
    | some ts => .ok ts
    | none => .error "Tag cannot be empty"
  | some _ => .error "tags must be a list"
  | none => .error "Field required: tags"

/-- The required `created` field via `_parse_date` (ISO string to date). -/
def getCreated (md : List (String × MVal)) : Except String PyDate :=
  match lookupStr "created" md with
  | some (.str s) =>
    match fromIso s with
    | some d => .ok d
    | none => .error "invalid date"
  | some _ => .error "invalid date"
  | none => .error "Field required: created"

/-- The optional `updated` field via `_parse_date`. -/
def getUpdated (md : List (String × MVal)) : Except String (Option PyDate) :=
  match lookupStr "updated" md with
  | some (.str s) =>
    match fromIso s with
    | some d => .ok (some d)
    | none => .error "invalid date"
  | some _ => .error "invalid date"
  | none => .ok none

/-- The optional `status : EntryStatus` field. -/
def getStatus (md : List (String × MVal)) : Except String (Option EntryStatus) :=
  match lookupStr "status" md with
  | some (.str s) =>
    match EntryStatus.ofString s with
    | some st => .ok (some st)
    | none => .error "invalid status"
  | some _ => .error "invalid status"
  | none => .ok none

/-- An optional plain-string field (`difficulty`, `author`). -/
def getOptStr (k : String) (md : List (String × MVal)) :
    Except String (Option String) :=
  match lookupStr k md with
  | some (.str s) => .ok (some s)
  | some _ => .error "must be a string"
  | none => .ok none

/-- Run the `EntryId` constructor over every raw related ID. -/
def makeIds : List String → Option (List EntryId)
  | [] => some []
  | s :: rest =>
    match EntryId.make s, makeIds rest with
    | some i, some is => some (i :: is)
    | _, _ => none

/-- The `related` field validator `_parse_related`: `None` passes through,
otherwise must be a list of valid IDs. -/
def getRelated (md : List (String × MVal)) :
    Except String (Option (List EntryId)) :=
  match lookupStr "related" md with
  | some (.list l) =>
    match makeIds l with
    | some is => .ok (some is)
    | none => .error "Invalid entry ID"
  | some _ => .error "related must be a list"
  | none => .ok none

/-- The optional `source : dict[str, str]` field. -/
def getSource (md : List (String × MVal)) :
    Except String (Option (List (String × String))) :=
  match lookupStr "source" md with
  | some (.map m) => .ok (some m)
  | some _ => .error "source must be a mapping"
  | none => .ok none

/-- `EntryFrontMatter(**metadata)`: every field validator plus the
model validator `_check_title` (title non-empty after strip); any failure
fails the whole parse. -/
def parse_front_matter (md : List (String × MVal)) :
    Except String EntryFrontMatter := do
  let id ← getId md
  let title ← getTitle md
  let ty ← getType md
  let tags ← getTags md
  let created ← getCreated md
  let updated ← getUpdated md
  let status ← getStatus md
  let difficulty ← getOptStr "difficulty" md
  let author ← getOptStr "author" md
  let related ← getRelated md
  let source ← getSource md
  if (pyStrip title.data).isEmpty then .error "title cannot be empty"
  else
    .ok { id, title, type := ty, tags, created, updated, status,
          difficulty, author, related, source }

/-- Resolution / parse errors of `repo.py` (`EntryNotFoundError`,
`EntryParseError`). -/
inductive RErr
  | entryNotFound (raw : String)
  | entryParse (path reason : String)
deriving DecidableEq, Repr

/-- `entry.parse_entry` on already-split file data: front-matter failures
are wrapped as `EntryParseError(path, reason)`. -/
def parse_entry (path : String) (fd : FileData) : Except RErr Entry :=
  match parse_front_matter fd.1 with
  | .error r => .error (.entryParse path ("Invalid front matter: " ++ r))
  | .ok fm => .ok { front_matter := fm, body := fd.2, source_path := some path }

/-! ### Body templates (templates.py) -/

/-- `templates.get_template`: the body template for each entry type. -/
def get_template : EntryType → String
  | .q_and_a =>
    "## Question\n\n<!-- What specific problem or question does this address? -->\n\n## Answers\n\n### Answer 1\n\n<!-- Describe the solution -->\n\n## Common Pitfalls\n\n<!-- What mistakes do people commonly make? -->\n\n## See Also\n\n<!-- Related entries or external links -->\n"
  | .guide =>
    "## Overview\n\n<!-- Brief description of what this guide covers -->\n\n## Prerequisites\n\n<!-- What does the reader need to know/have? -->\n\n## Steps\n\n### Step 1\n\n<!-- First step -->\n\n### Step 2\n\n<!-- Second step -->\n\n## Troubleshooting\n\n<!-- Common issues and how to resolve them -->\n"
  | .pat =>
    "## Problem\n\n<!-- What problem does this pattern solve? -->\n\n## Solution\n\n<!-- Describe the pattern -->\n\n## When to Use\n\n<!-- When is this pattern appropriate? -->\n\n## Trade-offs\n\n<!-- What are the pros and cons? -->\n"
  | .note =>
    "## Summary\n\n<!-- Brief summary of this note -->\n\n## Details\n\n<!-- Detailed content -->\n"

/-- `entry.create_entry`, parametrized by the random draw `n` feeding
`generate_id`; building the `EntryFrontMatter` runs its validators
(in particular the non-empty-title check), and each raw tag runs through
the `Tag` constructor. -/
def create_entry (n : Nat) (entry_type : EntryType) (title : String)
    (tags : List String) (today : PyDate) (author : Option String) :
    Option Entry :=
  match generate_id n, makeTags tags with
  | some entry_id, some parsed_tags =>
    if (pyStrip title.data).isEmpty then none
    else
      some { front_matter :=
              { id := entry_id, title, type := entry_type,
                tags := parsed_tags, created := today,
                status := some .draft, author },
             body := get_template entry_type }
  | _, _ => none

/-! ### Repository layout and operations (repo.py) -/

/-- The filesystem under the repository root: association list from
path (relative to the root) to split file data; a write prepends, a
lookup takes the most recent entry. -/
abbrev FS : Type := List (String × FileData)

/-- Write a file (overwrite semantics via first-match lookup). -/
def fsWrite (fs : FS) (path : String) (fd : FileData) : FS :=
  (path, fd) :: fs

/-- `KnowledgeRepo.entry_path`: `entries/<prefix>/<id>.md`. -/
def entry_path (i : EntryId) : String :=
  "entries/" ++ i.shard ++ "/" ++ i.value ++ ".md"

/-- `KnowledgeRepo.resolve_entry`: constructor failure on the raw ID and
a missing file both become `EntryNotFoundError`; otherwise the file at the
canonical path is parsed. -/
def resolve_entry (fs : FS) (raw_id : String) : Except RErr Entry :=
  match EntryId.make raw_id with
  | none => .error (.entryNotFound raw_id)
  | some entry_id =>
    match lookupStr (entry_path entry_id) fs with
    | none => .error (.entryNotFound raw_id)
    | some fd => parse_entry (entry_path entry_id) fd

/-- `KnowledgeRepo.save_entry`: serialize to the canonical path derived
from the entry's own ID; returns the new filesystem and the path. -/
def save_entry (fs : FS) (e : Entry) : FS × String :=
  let path := entry_path e.front_matter.id
  (fsWrite fs path (serialize_entry e), path)

/-! ### Repository initialization (repo.py `KnowledgeRepo.init`) -/

/-- The scaffolding files `init` touches: contents of
`.knowledge/config.yaml`, `README.md` and `.gitignore`
(`none` = file absent). Directory creation is `exist_ok=True`. -/
structure InitState where
  config : Option String
  readme : Option String
  gitignore : Option String
deriving DecidableEq, Repr

/-- `_DEFAULT_CONFIG.format(name=name)`. -/
def DEFAULT_CONFIG (name : String) : String :=
  "version: \"0.1.0\"\nname: \"" ++ name ++ "\"\ndescription: \"\"\n"

/-- `_DEFAULT_README.format(name=name)`. -/
def DEFAULT_README (name : String) : String :=
  "# " ++ name ++ "\n\nA knowledge repository managed by [lkr](https://github.com/lkr).\n"

/-- `_GITIGNORE_ADDITIONS`. -/
def GITIGNORE_ADDITIONS : String := "# LKR\n.knowledge/index.json\n"

/-- The ignore rule `init` checks for. -/
def INDEX_RULE : String := ".knowledge/index.json"

/-- `KnowledgeRepo.init`: config and README written only when absent;
the ignore rule appended (after `rstrip`) only when not already present. -/
def KnowledgeRepo.init (name : String) (s : InitState) : InitState :=
  { config :=
      match s.config with
      | some c => some c
      | none => some (DEFAULT_CONFIG name),
    readme :=
      match s.readme with
      | some r => some r
      | none => some (DEFAULT_README name),
    gitignore :=
      match s.gitignore with
      | some existing =>
        if strContains existing INDEX_RULE then some existing
        else some (String.mk (pyRstrip existing.data) ++ "\n" ++ GITIGNORE_ADDITIONS)
      | none => some GITIGNORE_ADDITIONS }

/-! ### Validation engine (validate.py) -/

/-- `validate.ValidationIssue`. -/
structure ValidationIssue where
  level : String
  file : String
  message : String
deriving DecidableEq, Repr

/-- `validate.ValidationReport`. -/
structure ValidationReport where
  issues : List ValidationIssue := []
  entries_checked : Nat := 0
  errors : Nat := 0
  warnings : Nat := 0
deriving DecidableEq, Repr

/-- `ValidationReport.add_error`. -/
def ValidationReport.add_error (r : ValidationReport) (file message : String) :
    ValidationReport :=
  { r with issues := r.issues ++ [⟨"error", file, message⟩],
           errors := r.errors + 1 }

/-- `ValidationReport.add_warning`. -/
def ValidationReport.add_warning (r : ValidationReport) (file message : String) :
    ValidationReport :=
  { r with issues := r.issues ++ [⟨"warning", file, message⟩],
           warnings := r.warnings + 1 }

/-- `ValidationReport.is_clean`. -/
def ValidationReport.is_clean (r : ValidationReport) : Bool :=
  r.errors = 0 && r.warnings = 0

/-- One `.md` file found by `rglob` under `entries/`:
its path relative to the root, its filename, its parent directory name,
and its contents (`none` models an unreadable file). -/
structure RFile where
  relPath : String
  name : String
  parentName : String
  data : Option ((List (String × MVal)) × String)
deriving DecidableEq, Repr

/-- `parse_entry(md_file)` as used by the validator, keeping the
`EntryParseError.reason` it would report. -/
def parse_rfile (f : RFile) : Except String EntryFrontMatter :=
  match f.data with
  | none => .error "Failed to read"
  | some (md, _) =>
    match parse_front_matter md with
    | .error r => .error ("Invalid front matter: " ++ r)
    | .ok fm => .ok fm

/-- A letter or digit, the class kept by `re.sub(r'[^a-zA-Z0-9\s]', ...)`
(ASCII fragment). -/
def isAlnumCh (c : Char) : Bool :=
  (48 ≤ c.toNat && c.toNat ≤ 57) || (65 ≤ c.toNat && c.toNat ≤ 90) ||
    (97 ≤ c.toNat && c.toNat ≤ 122)

/-- A character surviving `re.sub(r'[^a-zA-Z0-9\s]', '', title)`. -/
def keepCh (c : Char) : Bool := isAlnumCh c || isPySpace c

/-- Worker for Python `str.split()` (split on whitespace runs, no empty
words), accumulating the current word reversed. -/
def splitAux (cur : List Char) : List Char → List (List Char)
  | [] => if cur.isEmpty then [] else [cur.reverse]
  | c :: rest =>
    if isPySpace c then
      if cur.isEmpty then splitAux [] rest
      else cur.reverse :: splitAux [] rest
    else splitAux (c :: cur) rest

/-- Python `str.split()` on a character list. -/
def pySplit (l : List Char) : List (List Char) := splitAux [] l

/-- `'-'.join(...)` on character-list words. -/
def joinHyphen : List (List Char) → List Char
  | [] => []
  | [w] => w
  | w :: v :: rest => w ++ '-' :: joinHyphen (v :: rest)

/-- The slug computed in `validate_repo`:
`'-'.join(w.lower() for w in re.sub(...).split()[:8] if w)`. -/
def slugOf (title : String) : List Char :=
  let words := (pySplit (title.data.filter keepCh)).take 8
  joinHyphen ((words.filter (fun w => !w.isEmpty)).map (fun w => w.map lowerChar))

/-- The expected filename of `validate_repo`:
`f"{id}-{slug}.md" if slug else f"{id}.md"`. -/
def expected_filename (idv : String) (title : String) : String :=
  let slug := slugOf title
  if slug.isEmpty then idv ++ ".md"
  else idv ++ "-" ++ String.mk slug ++ ".md"

/-- The filename convention as the SPECIFICATION words it: slug obtained
from the title by stripping all characters except letters, digits and
whitespace, splitting into words, keeping at most the first 8 words,
lowercasing them and joining with hyphens; if no words survive the
expected filename is `<id>.md`. -/
def spec_expected_filename (idv : String) (title : String) : String :=
  let words := (pySplit (title.data.filter keepCh)).take 8
  let slug := joinHyphen (words.map (fun w => w.map lowerChar))
  if words.isEmpty then idv ++ ".md"
  else idv ++ "-" ++ String.mk slug ++ ".md"

/-- Message of the filename-convention error (`!r` is single-quote repr). -/
def filenameMsg (name idv : String) : String :=
  "Filename " ++ pyRepr name ++ " doesn" ++ squote ++ "t match ID " ++
    pyRepr idv ++ " and title slug"

/-- Message of the directory-convention error. -/
def directoryMsg (parent pfx : String) : String :=
  "Directory " ++ pyRepr parent ++ " doesn" ++ squote ++ "t match ID prefix " ++
    pyRepr pfx

/-- Message of the duplicate-ID error. -/
def dupMsg (idv first : String) : String :=
  "Duplicate ID " ++ pyRepr idv ++ " (also in " ++ first ++ ")"

/-- Message of the missing-related-ID error. -/
def relatedMsg (refv : String) : String :=
  "Related ID " ++ pyRepr refv ++ " not found"

/-- Message of the old-draft warning. -/
def draftMsg (age : Int) : String :=
  "Draft entry is " ++ toString age ++ " days old"

/-- Message of the never-updated warning. -/
def staleMsg (age : Int) : String :=
  "Entry has no " ++ squote ++ "updated" ++ squote ++ " date and is " ++
    toString age ++ " days old"

/-- The per-file loop body of `validate_repo` (schema check, filename
convention, directory convention), also collecting the parsed entries
with their relative paths. -/
def checkFile (acc : ValidationReport × List (String × EntryFrontMatter))
    (f : RFile) : ValidationReport × List (String × EntryFrontMatter) :=
  let r := { acc.1 with entries_checked := acc.1.entries_checked + 1 }
  match parse_rfile f with
  | .error reason => (r.add_error f.relPath reason, acc.2)
  | .ok fm =>
    let r :=
      if f.name ≠ expected_filename fm.id.value fm.title then
        r.add_error f.relPath (filenameMsg f.name fm.id.value)
      else r
    let r :=
      if f.parentName ≠ fm.id.shard then
        r.add_error f.relPath (directoryMsg f.parentName fm.id.shard)
      else r
    (r, acc.2 ++ [(f.relPath, fm)])

/-- The uniqueness pass of `validate_repo`: fold over parsed entries with
the `seen_ids` map (id value, location of first occurrence); returns the
updated report and the final `seen_ids`. -/
def dupPass : List (String × EntryFrontMatter) → List (String × String) →
    ValidationReport → ValidationReport × List (String × String)
  | [], seen, r => (r, seen)
  | (rel, fm) :: rest, seen, r =>
    match lookupStr fm.id.value seen with
    | some first => dupPass rest seen (r.add_error rel (dupMsg fm.id.value first))
    | none => dupPass rest (seen ++ [(fm.id.value, rel)]) r

/-- The referential-integrity pass: each `related` ID (the source tests
truthiness, so `None` and the empty list are skipped) must be a key in
`seen_ids`. -/
def relatedPass (seen : List (String × String)) :
    List (String × EntryFrontMatter) → ValidationReport → ValidationReport
  | [], r => r
  | (rel, fm) :: rest, r =>
    let r :=
      match fm.related with
      | none => r
      | some l =>
        if l.isEmpty then r
        else
          l.foldl
            (fun acc ref =>
              if (lookupStr ref.value seen).isNone then
                acc.add_error rel (relatedMsg ref.value)
              else acc)
            r
    relatedPass seen rest r

/-- The staleness-warning pass: old drafts and never-updated old entries. -/
def warnPass (today : PyDate) :
    List (String × EntryFrontMatter) → ValidationReport → ValidationReport
  | [], r => r
  | (rel, fm) :: rest, r =>
    let r :=
      if fm.status = some .draft ∧ dateDiff today fm.created > 30 then
        r.add_warning rel (draftMsg (dateDiff today fm.created))
      else r
    let r :=
      if fm.updated = none ∧ dateDiff today fm.created > 180 then
        r.add_warning rel (staleMsg (dateDiff today fm.created))
      else r
    warnPass today rest r

/-- `validate.validate_repo`: schema/filename/directory checks per file,
then uniqueness, referential integrity and staleness warnings. `files` is
the lexicographically sorted `rglob` result, `today` is `date.today()`. -/
def validate_repo (files : List RFile) (today : PyDate) : ValidationReport :=
  let scan := files.foldl checkFile ({}, [])
  let dup := dupPass scan.2 [] scan.1
  let r3 := relatedPass dup.2 scan.2 dup.1
  warnPass today scan.2 r3

/-- The successfully parsed entries of a scan, with their locations. -/
def collectEntries (files : List RFile) : List (String × EntryFrontMatter) :=
  (files.foldl checkFile ({}, [])).2

/-! ## Helper lemmas -/

/-! ### Strings and characters -/

theorem str_data_append (s t : String) : (s ++ t).data = s.data ++ t.data := by
  cases s; cases t; rfl

theorem base36Char_not_space {c : Char} (h : base36Char c = true) :
    isPySpace c = false := by
  simp only [base36Char, Bool.or_eq_true, Bool.and_eq_true, decide_eq_true_eq] at h
  simp only [isPySpace, Bool.or_eq_false_iff, decide_eq_false_iff_not]
  omega

theorem base36Char_lower_fixed {c : Char} (h : base36Char c = true) :
    lowerChar c = c := by
  simp only [base36Char, Bool.or_eq_true, Bool.and_eq_true, decide_eq_true_eq] at h
  unfold lowerChar
  split
  · omega
  · rfl

theorem dropWhile_space_eq_self {l : List Char}
    (h : ∀ c ∈ l, isPySpace c = false) : l.dropWhile isPySpace = l := by
  cases l with
  | nil => rfl
  | cons c t => simp [List.dropWhile_cons, h c (by simp)]

theorem pyStrip_eq_self {l : List Char}
    (h : ∀ c ∈ l, isPySpace c = false) : pyStrip l = l := by
  unfold pyStrip
  rw [dropWhile_space_eq_self h]
  rw [dropWhile_space_eq_self (by intro c hc; exact h c (List.mem_reverse.mp hc))]
  exact List.reverse_reverse l

theorem map_lower_eq_self {l : List Char}
    (h : ∀ c ∈ l, base36Char c = true) : l.map lowerChar = l := by
  induction l with
  | nil => rfl
  | cons c t ih =>
    simp only [List.map_cons]
    rw [base36Char_lower_fixed (h c (by simp)), ih (fun x hx => h x (by simp [hx]))]

theorem pyStripLower_fixed {s : String} (h : s.data.all base36Char = true) :
    pyStripLower s = s := by
  rw [List.all_eq_true] at h
  unfold pyStripLower
  rw [pyStrip_eq_self (fun c hc => base36Char_not_space (h c hc)),
    map_lower_eq_self h]

theorem base36Re_all {s : String} (h : base36Re s = true) :
    s.data.all base36Char = true := by
  simp only [base36Re, Bool.and_eq_true] at h
  exact h.2

theorem EntryId.make_of_base36 {s : String} (h : base36Re s = true) :
    EntryId.make s = some ⟨s⟩ := by
  unfold EntryId.make
  rw [pyStripLower_fixed (base36Re_all h), if_pos h]

/-! ### Base36 codec -/

theorem alphabet_base36 : ∀ r : Nat, r < 36 →
    base36Char (ALPHABET.getD r '0') = true := by decide

theorem alphabet_val : ∀ r : Nat, r < 36 →
    digit36Val (ALPHABET.getD r '0') = some r := by decide

theorem encodeGo_all_base36 : ∀ n : Nat, (encodeGo n).all base36Char = true := by
  intro n
  induction n using Nat.strong_induction_on with
  | _ n ih =>
    match n with
    | 0 => simp [encodeGo]
    | m + 1 =>
      rw [encodeGo]
      simp only [List.all_cons, Bool.and_eq_true]
      exact ⟨alphabet_base36 _ (Nat.mod_lt _ (by omega)),
        ih _ (Nat.div_lt_self (Nat.succ_pos m) (by omega))⟩

theorem encodeGo_len : ∀ (k n : Nat), n < 36 ^ k → (encodeGo n).length ≤ k := by
  intro k
  induction k with
  | zero =>
    intro n hn
    interval_cases n
    simp [encodeGo]
  | succ k ih =>
    intro n hn
    match n with
    | 0 => simp [encodeGo]
    | m + 1 =>
      rw [encodeGo]
      simp only [List.length_cons]
      have hq : (m + 1) / 36 < 36 ^ k := by
        rw [Nat.div_lt_iff_lt_mul (by omega)]
        calc m + 1 < 36 ^ (k + 1) := hn
        _ = 36 ^ k * 36 := by rw [pow_succ]
      exact Nat.succ_le_succ (ih _ hq)

theorem decodeDigits_append (a : Nat) (l1 l2 : List Char) :
    decodeDigits a (l1 ++ l2) =
      match decodeDigits a l1 with
      | some x => decodeDigits x l2
      | none => none := by
  induction l1 generalizing a with
  | nil => simp [decodeDigits]
  | cons c t ih =>
    simp only [List.cons_append, decodeDigits]
    cases digit36Val c with
    | none => rfl
    | some d => exact ih (a * 36 + d)

theorem decode_encodeGo : ∀ (n a : Nat),
    decodeDigits a (encodeGo n).reverse =
      some (a * 36 ^ (encodeGo n).length + n) := by
  intro n
  induction n using Nat.strong_induction_on with
  | _ n ih =>
    intro a
    match n with
    | 0 => simp [encodeGo, decodeDigits]
    | m + 1 =>
      rw [encodeGo]
      simp only [List.reverse_cons, List.length_cons]
      rw [decodeDigits_append,
        ih _ (Nat.div_lt_self (Nat.succ_pos m) (by omega))]
      simp only [decodeDigits, alphabet_val _ (Nat.mod_lt _ (by omega : (0:Nat) < 36))]
      congr 1
      have hdm := Nat.div_add_mod (m + 1) 36
      rw [pow_succ]
      ring_nf
      omega

theorem decode_of_encode (n : Nat) (hn : 0 < n) :
    decode_base36 (String.mk (encodeGo n).reverse) = some n := by
  unfold decode_base36
  rcases hrev : (encodeGo n).reverse with _ | ⟨c, t⟩
  · exfalso
    match n, hn with
    | m + 1, _ =>
      rw [encodeGo] at hrev
      simp only [List.reverse_cons] at hrev
      exact absurd hrev (by simp)
  · have h := decode_encodeGo n 0
    rw [hrev] at h
    simpa using h

/-! ### `generate_id` -/

theorem generate_id_spec (n : Nat) (hn : n < 2 ^ 40) :
    ∃ i, generate_id n = some i ∧ i.value.length = 8 ∧
      i.value.data.all base36Char = true := by
  have h36 : n < 36 ^ 8 := lt_of_lt_of_le hn (by norm_num)
  by_cases h0 : n = 0
  · subst h0
    exact ⟨⟨"00000000"⟩, by decide, by decide, by decide⟩
  · have step : generate_id n =
        EntryId.make (String.mk ((pyLjust (encodeGo n).reverse 8 '0').take 8)) := by
      unfold generate_id encode_base36
      rw [if_neg (by omega), if_neg (by exact_mod_cast h0)]
      simp only [Int.toNat_natCast]
    have hlen : (encodeGo n).reverse.length ≤ 8 := by
      rw [List.length_reverse]
      exact encodeGo_len 8 n h36
    have hall : (encodeGo n).reverse.all base36Char = true := by
      rw [List.all_eq_true]
      intro c hc
      exact (List.all_eq_true.mp (encodeGo_all_base36 n)) c (List.mem_reverse.mp hc)
    have hlen8 : ((pyLjust (encodeGo n).reverse 8 '0').take 8).length = 8 := by
      rw [pyLjust, List.length_take, List.length_append, List.length_replicate]
      omega
    have hall8 : ((pyLjust (encodeGo n).reverse 8 '0').take 8).all base36Char = true := by
      rw [List.all_eq_true]
      intro c hc
      have hc' : c ∈ pyLjust (encodeGo n).reverse 8 '0' := List.take_subset _ _ hc
      rw [pyLjust, List.mem_append] at hc'
      rcases hc' with hc' | hc'
      · exact (List.all_eq_true.mp hall) c hc'
      · rw [List.eq_of_mem_replicate hc']
        decide
    have hre : base36Re (String.mk ((pyLjust (encodeGo n).reverse 8 '0').take 8)) = true := by
      simp only [base36Re, Bool.and_eq_true]
      refine ⟨⟨?_, ?_⟩, hall8⟩
      · simp only [decide_eq_true_eq]
        show 1 ≤ ((pyLjust (encodeGo n).reverse 8 '0').take 8).length
        omega
      · simp only [decide_eq_true_eq]
        show ((pyLjust (encodeGo n).reverse 8 '0').take 8).length ≤ 8
        omega
    refine ⟨⟨String.mk ((pyLjust (encodeGo n).reverse 8 '0').take 8)⟩, ?_, hlen8, hall8⟩
    rw [step, EntryId.make_of_base36 hre]

/-! ### Substring containment and `init` -/

theorem leadsWith_append_false {p q : List Char} (r : List Char)
    (h1 : leadsWith p q = false) (h2 : leadsWith q p = false) :
    leadsWith p (q ++ r) = false := by
  induction p generalizing q with
  | nil => simp [leadsWith] at h1
  | cons a p' ih =>
    cases q with
    | nil => simp [leadsWith] at h2
    | cons b q' =>
      simp only [leadsWith, Bool.and_eq_false_iff, decide_eq_false_iff_not] at h1 h2
      simp only [List.cons_append, leadsWith, Bool.and_eq_false_iff,
        decide_eq_false_iff_not]
      rcases h1 with h1 | h1
      · exact Or.inl h1
      · rcases h2 with h2 | h2
        · exact Or.inl (fun he => h2 he.symm)
        · exact Or.inr (ih h1 h2)

theorem occursIn_append_right {needle h2 : List Char} (h1 : List Char)
    (h : occursIn needle h2 = true) : occursIn needle (h1 ++ h2) = true := by
  induction h1 with
  | nil => simpa using h
  | cons c t ih =>
    simp only [List.cons_append, occursIn, Bool.or_eq_true]
    exact Or.inr ih

theorem init_gitignore_contains (name : String) (s : InitState) :
    ∃ g, (KnowledgeRepo.init name s).gitignore = some g ∧
      strContains g INDEX_RULE = true := by
  unfold KnowledgeRepo.init
  cases hg : s.gitignore with
  | none =>
    exact ⟨GITIGNORE_ADDITIONS, rfl, by decide⟩
  | some existing =>
    simp only []
    by_cases hc : strContains existing INDEX_RULE = true
    · rw [if_pos hc]
      exact ⟨existing, rfl, hc⟩
    · rw [if_neg hc]
      refine ⟨_, rfl, ?_⟩
      unfold strContains
      rw [str_data_append]
      apply occursIn_append_right
      decide

/-! ### Date round trip -/

theorem daysInMonth_le_31 (y m : Nat) : daysInMonth y m ≤ 31 := by
  unfold daysInMonth
  split
  · split <;> omega
  · split <;> omega

theorem digitVal_digitChar_mod (k : Nat) :
    digitVal (digitChar (k % 10)) = k % 10 := by
  have h : ∀ j, j < 10 → digitVal (digitChar j) = j := by decide
  exact h _ (Nat.mod_lt _ (by omega))

theorem isDigitCh_digitChar_mod (k : Nat) :
    isDigitCh (digitChar (k % 10)) = true := by
  have h : ∀ j, j < 10 → isDigitCh (digitChar j) = true := by decide
  exact h _ (Nat.mod_lt _ (by omega))

theorem fromIso_toIso {d : PyDate} (h : validDate d = true) :
    fromIso (toIso d) = some d := by
  have hv := h
  simp only [validDate, Bool.and_eq_true, decide_eq_true_eq] at hv
  obtain ⟨⟨⟨⟨⟨h1, h2⟩, h3⟩, h4⟩, h5⟩, h6⟩ := hv
  have hdm : daysInMonth d.year d.month ≤ 31 := daysInMonth_le_31 _ _
  unfold toIso fromIso pad4 pad2
  simp only [List.cons_append, List.nil_append]
  split
  · simp only [digitVal_digitChar_mod]
    have ey : d.year / 1000 % 10 * 1000 + d.year / 100 % 10 * 100 +
        d.year / 10 % 10 * 10 + d.year % 10 = d.year := by omega
    have em : d.month / 10 % 10 * 10 + d.month % 10 = d.month := by omega
    have ed : d.day / 10 % 10 * 10 + d.day % 10 = d.day := by omega
    rw [ey, em, ed]
    rw [if_pos h]
  · rename_i hcond
    simp [isDigitCh_digitChar_mod] at hcond

/-! ### Metadata lookups -/

theorem lookupStr_cons_eq {α : Type} (k : String) (v : α)
    (l : List (String × α)) : lookupStr k ((k, v) :: l) = some v := by
  simp [lookupStr]

theorem lookupStr_cons_ne {α : Type} {k k' : String} (h : k' ≠ k) (v : α)
    (l : List (String × α)) : lookupStr k ((k', v) :: l) = lookupStr k l := by
  simp [lookupStr, h]

theorem lookupStr_append {α : Type} (k : String) (l1 l2 : List (String × α)) :
    lookupStr k (l1 ++ l2) =
      match lookupStr k l1 with
      | some v => some v
      | none => lookupStr k l2 := by
  induction l1 with
  | nil => simp [lookupStr]
  | cons p t ih =>
    obtain ⟨k', v⟩ := p
    by_cases h : k' = k
    · subst h
      simp [lookupStr]
    · simp only [List.cons_append, lookupStr, if_neg h]
      exact ih

theorem lookup_optEntry_ne {α : Type} {k key : String} (h : k ≠ key)
    (f : α → MVal) (o : Option α) (rest : List (String × MVal)) :
    lookupStr k (optEntry key f o ++ rest) = lookupStr k rest := by
  have h' : ¬(key = k) := fun he => h he.symm
  cases o with
  | none => simp [optEntry]
  | some x => simp [optEntry, lookupStr, h']

theorem lookup_optEntry_none {α : Type} (key : String) (f : α → MVal)
    (rest : List (String × MVal)) :
    lookupStr key (optEntry key f none ++ rest) = lookupStr key rest := by
  simp [optEntry]

theorem lookup_optEntry_some {α : Type} (key : String) (f : α → MVal) (x : α)
    (rest : List (String × MVal)) :
    lookupStr key (optEntry key f (some x) ++ rest) = some (f x) := by
  simp [optEntry, lookupStr]

theorem lookup_optEntry_last_ne {α : Type} {k key : String} (h : k ≠ key)
    (f : α → MVal) (o : Option α) :
    lookupStr k (optEntry key f o) = none := by
  have h' : ¬(key = k) := fun he => h he.symm
  cases o with
  | none => rfl
  | some x => simp [optEntry, lookupStr, h']

theorem lookup_optEntry_last_none {α : Type} (key : String) (f : α → MVal) :
    lookupStr key (optEntry key f none) = none := rfl

theorem lookup_optEntry_last_some {α : Type} (key : String) (f : α → MVal)
    (x : α) : lookupStr key (optEntry key f (some x)) = some (f x) := by
  simp [optEntry, lookupStr]

theorem lookup_relEntry_ne {k : String} (h : k ≠ "related")
    (o : Option (List EntryId)) (rest : List (String × MVal)) :
    lookupStr k (relEntry o ++ rest) = lookupStr k rest := by
  have h' : ¬(("related" : String) = k) := fun he => h he.symm
  cases o with
  | none => simp [relEntry]
  | some l =>
    by_cases he : l.isEmpty
    · simp [relEntry, he]
    · simp [relEntry, he, lookupStr, h']

theorem lookup_relEntry_none (rest : List (String × MVal)) :
    lookupStr "related" (relEntry none ++ rest) = lookupStr "related" rest := by
  simp [relEntry]

theorem lookup_relEntry_some {l : List EntryId} (h : l.isEmpty = false)
    (rest : List (String × MVal)) :
    lookupStr "related" (relEntry (some l) ++ rest) =
      some (.list (l.map EntryId.value)) := by
  simp [relEntry, h, lookupStr]

/-! ### Field round trips -/

theorem except_bind_ok {ε α β : Type} (a : α) (f : α → Except ε β) :
    (Except.ok a : Except ε α) >>= f = f a := rfl

theorem entryType_ofString_toStr (t : EntryType) :
    EntryType.ofString t.toStr = some t := by
  cases t <;> decide

theorem entryStatus_ofString_toStr (st : EntryStatus) :
    EntryStatus.ofString st.toStr = some st := by
  cases st <;> decide

/-- Invariant of a `Tag` as established by its constructor. -/
def tagNorm (t : Tag) : Bool :=
  decide (t.value ≠ "") && decide (pyStripLower t.value = t.value)

theorem Tag.make_norm {t : Tag} (h : tagNorm t = true) :
    Tag.make t.value = some t := by
  simp only [tagNorm, Bool.and_eq_true, decide_eq_true_eq] at h
  unfold Tag.make
  rw [h.2, if_neg h.1]

theorem makeTags_roundtrip {ts : List Tag} (h : ∀ t ∈ ts, tagNorm t = true) :
    makeTags (ts.map Tag.value) = some ts := by
  induction ts with
  | nil => rfl
  | cons t rest ih =>
    simp only [List.map_cons, makeTags]
    rw [Tag.make_norm (h t (by simp)), ih (fun x hx => h x (by simp [hx]))]

theorem makeIds_roundtrip {l : List EntryId}
    (h : ∀ i ∈ l, base36Re i.value = true) :
    makeIds (l.map EntryId.value) = some l := by
  induction l with
  | nil => rfl
  | cons i rest ih =>
    simp only [List.map_cons, makeIds]
    rw [EntryId.make_of_base36 (h i (by simp)), ih (fun x hx => h x (by simp [hx]))]

/-- Validity of a front matter value, as established by the pydantic
validators on any successfully constructed `EntryFrontMatter`. -/
def fmValid (fm : EntryFrontMatter) : Bool :=
  base36Re fm.id.value &&
  !(pyStrip fm.title.data).isEmpty &&
  fm.tags.all tagNorm &&
  validDate fm.created &&
  (match fm.updated with | none => true | some d => validDate d) &&
  (match fm.related with
   | none => true
   | some l => l.all (fun i => base36Re i.value))

theorem getId_md {fm : EntryFrontMatter} (h : base36Re fm.id.value = true) :
    getId (entryMetadata fm) = .ok fm.id := by
  unfold getId entryMetadata
  rw [lookupStr_cons_eq]
  simp [EntryId.make_of_base36 h]

theorem getTitle_md (fm : EntryFrontMatter) :
    getTitle (entryMetadata fm) = .ok fm.title := by
  unfold getTitle entryMetadata
  rw [lookupStr_cons_ne (by decide), lookupStr_cons_eq]

theorem getType_md (fm : EntryFrontMatter) :
    getType (entryMetadata fm) = .ok fm.type := by
  unfold getType entryMetadata
  rw [lookupStr_cons_ne (by decide), lookupStr_cons_ne (by decide),
    lookupStr_cons_eq]
  simp [entryType_ofString_toStr]

theorem getTags_md {fm : EntryFrontMatter}
    (h : ∀ t ∈ fm.tags, tagNorm t = true) :
    getTags (entryMetadata fm) = .ok fm.tags := by
  unfold getTags entryMetadata
  rw [lookupStr_cons_ne (by decide), lookupStr_cons_ne (by decide),
    lookupStr_cons_ne (by decide), lookupStr_cons_eq]
  simp [makeTags_roundtrip h]

theorem getCreated_md {fm : EntryFrontMatter}
    (h : validDate fm.created = true) :
    getCreated (entryMetadata fm) = .ok fm.created := by
  unfold getCreated entryMetadata
  rw [lookupStr_cons_ne (by decide), lookupStr_cons_ne (by decide),
    lookupStr_cons_ne (by decide), lookupStr_cons_ne (by decide),
    lookupStr_cons_eq]
  simp [fromIso_toIso h]

theorem getUpdated_md {fm : EntryFrontMatter}
    (h : ∀ d, fm.updated = some d → validDate d = true) :
    getUpdated (entryMetadata fm) = .ok fm.updated := by
  unfold getUpdated entryMetadata
  rw [lookupStr_cons_ne (by decide), lookupStr_cons_ne (by decide),
    lookupStr_cons_ne (by decide), lookupStr_cons_ne (by decide),
    lookupStr_cons_ne (by decide)]
  cases hu : fm.updated with
  | none =>
    rw [lookup_optEntry_none, lookup_optEntry_ne (by decide),
      lookup_optEntry_ne (by decide), lookup_optEntry_ne (by decide),
      lookup_relEntry_ne (by decide), lookup_optEntry_last_ne (by decide)]
  | some d =>
    rw [lookup_optEntry_some]
    simp [fromIso_toIso (h d hu)]

theorem getStatus_md (fm : EntryFrontMatter) :
    getStatus (entryMetadata fm) = .ok fm.status := by
  unfold getStatus entryMetadata
  rw [lookupStr_cons_ne (by decide), lookupStr_cons_ne (by decide),
    lookupStr_cons_ne (by decide), lookupStr_cons_ne (by decide),
    lookupStr_cons_ne (by decide), lookup_optEntry_ne (by decide)]
  cases hs : fm.status with
  | none =>
    rw [lookup_optEntry_none, lookup_optEntry_ne (by decide),
      lookup_optEntry_ne (by decide), lookup_relEntry_ne (by decide),
      lookup_optEntry_last_ne (by decide)]
  | some st =>
    rw [lookup_optEntry_some]
    simp [entryStatus_ofString_toStr]

theorem getDifficulty_md (fm : EntryFrontMatter) :
    getOptStr "difficulty" (entryMetadata fm) = .ok fm.difficulty := by
  unfold getOptStr entryMetadata
  rw [lookupStr_cons_ne (by decide), lookupStr_cons_ne (by decide),
    lookupStr_cons_ne (by decide), lookupStr_cons_ne (by decide),
    lookupStr_cons_ne (by decide), lookup_optEntry_ne (by decide),
    lookup_optEntry_ne (by decide)]
  cases hd : fm.difficulty with
  | none =>
    rw [lookup_optEntry_none, lookup_optEntry_ne (by decide),
      lookup_relEntry_ne (by decide), lookup_optEntry_last_ne (by decide)]
  | some s => rw [lookup_optEntry_some]

theorem getAuthor_md (fm : EntryFrontMatter) :
    getOptStr "author" (entryMetadata fm) = .ok fm.author := by
  unfold getOptStr entryMetadata
  rw [lookupStr_cons_ne (by decide), lookupStr_cons_ne (by decide),
    lookupStr_cons_ne (by decide), lookupStr_cons_ne (by decide),
    lookupStr_cons_ne (by decide), lookup_optEntry_ne (by decide),
    lookup_optEntry_ne (by decide), lookup_optEntry_ne (by decide)]
  cases ha : fm.author with
  | none =>
    rw [lookup_optEntry_none, lookup_relEntry_ne (by decide),
      lookup_optEntry_last_ne (by decide)]
  | some s => rw [lookup_optEntry_some]

theorem getRelated_md {fm : EntryFrontMatter} (hne : fm.related ≠ some [])
    (h : ∀ l, fm.related = some l → ∀ i ∈ l, base36Re i.value = true) :
    getRelated (entryMetadata fm) = .ok fm.related := by
  unfold getRelated entryMetadata
  rw [lookupStr_cons_ne (by decide), lookupStr_cons_ne (by decide),
    lookupStr_cons_ne (by decide), lookupStr_cons_ne (by decide),
    lookupStr_cons_ne (by decide), lookup_optEntry_ne (by decide),
    lookup_optEntry_ne (by decide), lookup_optEntry_ne (by decide),
    lookup_optEntry_ne (by decide)]
  cases hr : fm.related with
  | none =>
    rw [lookup_relEntry_none, lookup_optEntry_last_ne (by decide)]
  | some l =>
    have hl : l.isEmpty = false := by
      cases l with
      | nil => exact absurd hr hne
      | cons a t => rfl
    rw [lookup_relEntry_some hl]
    simp [makeIds_roundtrip (h l hr)]

theorem getSource_md (fm : EntryFrontMatter) :
    getSource (entryMetadata fm) = .ok fm.source := by
  unfold getSource entryMetadata
  rw [lookupStr_cons_ne (by decide), lookupStr_cons_ne (by decide),
    lookupStr_cons_ne (by decide), lookupStr_cons_ne (by decide),
    lookupStr_cons_ne (by decide), lookup_optEntry_ne (by decide),
    lookup_optEntry_ne (by decide), lookup_optEntry_ne (by decide),
    lookup_optEntry_ne (by decide), lookup_relEntry_ne (by decide)]
  cases hs : fm.source with
  | none => rw [lookup_optEntry_last_none]
  | some m => rw [lookup_optEntry_last_some]

/-- The serialize/parse round trip on front matter, for valid front
matter whose `related` list is not the (truthiness-dropped) empty list. -/
theorem parse_serialize_fm {fm : EntryFrontMatter} (hv : fmValid fm = true)
    (hrel : fm.related ≠ some []) :
    parse_front_matter (entryMetadata fm) = .ok fm := by
  simp only [fmValid, Bool.and_eq_true] at hv
  obtain ⟨⟨⟨⟨⟨hid, htitle⟩, htags⟩, hcre⟩, hupd⟩, hrel36⟩ := hv
  have htags' : ∀ t ∈ fm.tags, tagNorm t = true := List.all_eq_true.mp htags
  have hupd' : ∀ d, fm.updated = some d → validDate d = true := by
    intro d hd
    rw [hd] at hupd
    exact hupd
  have hrel36' : ∀ l, fm.related = some l → ∀ i ∈ l, base36Re i.value = true := by
    intro l hl
    rw [hl] at hrel36
    exact List.all_eq_true.mp hrel36
  have hstrip : (pyStrip fm.title.data).isEmpty = false := by
    simpa using htitle
  unfold parse_front_matter
  rw [getId_md hid, except_bind_ok, getTitle_md fm, except_bind_ok,
    getType_md fm, except_bind_ok, getTags_md htags', except_bind_ok,
    getCreated_md hcre, except_bind_ok, getUpdated_md hupd', except_bind_ok,
    getStatus_md fm, except_bind_ok, getDifficulty_md fm, except_bind_ok,
    getAuthor_md fm, except_bind_ok, getRelated_md hrel hrel36',
    except_bind_ok, getSource_md fm, except_bind_ok]
  rw [if_neg (by simp [hstrip])]

/-! ## Claim theorems -/

/-- C2: the claim states that uppercase input, surrounding whitespace, and
other non-canonical strings make `EntryId` construction fail.  The code
normalizes with `strip().lower()` BEFORE validating, so `"AB"` succeeds
(and is not itself a lowercase base36 string of length 1-8): the claim as
stated is false. -/
theorem entryid_uppercase_succeeds :
    base36Re "AB" = false ∧ EntryId.make "AB" = some ⟨"ab"⟩ := by decide

/-- C2 (amended): for every raw string of 1-8 base36 characters
construction succeeds with `.value` equal to the input; for every raw
string whose `strip().lower()` normalization is a valid 1-8-character
base36 string (so in particular uppercase letters and surrounding
whitespace), construction succeeds with `.value` equal to that
normalization; every constructed value equals the normalization of the
input; and construction fails exactly when the normalization is not a
valid 1-8-character base36 string. -/
theorem entryid_construction (s : String) :
    (base36Re s = true → EntryId.make s = some ⟨s⟩) ∧
    (base36Re (pyStripLower s) = true →
      EntryId.make s = some ⟨pyStripLower s⟩) ∧
    (∀ i, EntryId.make s = some i → i.value = pyStripLower s) ∧
    (base36Re (pyStripLower s) = false → EntryId.make s = none) := by
  refine ⟨fun h => EntryId.make_of_base36 h, ?_, ?_, ?_⟩
  · intro h
    unfold EntryId.make
    rw [if_pos h]
  · intro i hi
    unfold EntryId.make at hi
    by_cases h : base36Re (pyStripLower s) = true
    · rw [if_pos h] at hi
      cases hi
      rfl
    · rw [if_neg h] at hi
      cases hi
  · intro h
    unfold EntryId.make
    rw [if_neg (by simp [h])]

/-- Witness for the amended C2 at concrete inputs: a canonical lowercase
ID, an uppercase-and-whitespace input that succeeds normalized, and an
input whose normalization is invalid. -/
theorem entryid_construction_witness :
    EntryId.make "ab12" = some ⟨"ab12"⟩ ∧
    EntryId.make " Ab " = some ⟨"ab"⟩ ∧
    EntryId.make "a!" = none :=
  ⟨(entryid_construction "ab12").1 (by decide),
   (entryid_construction " Ab ").2.1 (by decide),
   (entryid_construction "a!").2.2.2 (by decide)⟩

/-- C8: every ID produced by `generate_id` on a 5-byte random value
(`n < 2^40`) is exactly 8 base36 characters, because `2^40 - 1 < 36^8`
makes the base36 encoding at most 8 digits before padding. -/
theorem generate_id_eight_base36 (n : Nat) (hn : n < 2 ^ 40) :
    2 ^ 40 - 1 < 36 ^ 8 ∧
    ∃ i, generate_id n = some i ∧ i.value.length = 8 ∧
      i.value.data.all base36Char = true :=
  ⟨by norm_num, generate_id_spec n hn⟩

/-- Witness for C8 at a concrete random value. -/
theorem generate_id_eight_base36_witness :
    2 ^ 40 - 1 < 36 ^ 8 ∧
    ∃ i, generate_id 1 = some i ∧ i.value.length = 8 ∧
      i.value.data.all base36Char = true :=
  generate_id_eight_base36 1 (by norm_num)

/-- C9: decoding inverts encoding for every non-negative integer
(including 0), and encoding a negative integer fails with a validation
error. -/
theorem decode_encode_roundtrip (n : Int) :
    (0 ≤ n → (encode_base36 n).toOption.bind decode_base36 = some n.toNat) ∧
    (n < 0 → encode_base36 n = .error "Cannot encode negative number") := by
  constructor
  · intro hge
    unfold encode_base36
    rw [if_neg (by omega)]
    by_cases h0 : n = 0
    · subst h0
      decide
    · rw [if_neg h0]
      simp only [Except.toOption, Option.bind_some]
      exact decode_of_encode n.toNat (by omega)
  · intro hlt
    unfold encode_base36
    rw [if_pos hlt]

/-- Witness for C9 at concrete inputs. -/
theorem decode_encode_roundtrip_witness :
    (encode_base36 36).toOption.bind decode_base36 = some 36 ∧
    encode_base36 (-5) = .error "Cannot encode negative number" :=
  ⟨(decode_encode_roundtrip 36).1 (by decide),
   (decode_encode_roundtrip (-5)).2 (by decide)⟩

/-- A valid front matter whose `related` list is present but empty,
used to exhibit the failure of the C3 round trip. -/
def fmEmptyRelated : EntryFrontMatter :=
  { id := ⟨"ab123456"⟩, title := "Test Note", type := .note,
    tags := [⟨"test"⟩], created := ⟨2025, 1, 15⟩, status := some .draft,
    related := some [] }

/-- C3: the claim includes entries whose `related` list is empty, but
`serialize_entry` drops a present-but-empty `related` (Python truthiness
`if fm.related:`), so the re-parse yields `related = None`, which is not
field-by-field equal to the original `related = []`. -/
theorem roundtrip_drops_empty_related :
    fmValid fmEmptyRelated = true ∧
    parse_front_matter (entryMetadata fmEmptyRelated) =
      .ok { fmEmptyRelated with related := none } ∧
    ({ fmEmptyRelated with related := none } : EntryFrontMatter) ≠
      fmEmptyRelated := by decide

/-- C3 (amended): for every valid Entry whose `related` field is not a
present-but-empty list, parsing the serialized form yields a FrontMatter
equal field-by-field to the original (dates and enums compared by value:
the embedding's `PyDate` / enum types ARE the values). -/
theorem parse_serialize_roundtrip (e : Entry)
    (hv : fmValid e.front_matter = true)
    (hrel : e.front_matter.related ≠ some []) :
    parse_front_matter (serialize_entry e).1 = .ok e.front_matter :=
  parse_serialize_fm hv hrel

/-- A fully populated valid entry for the C3 witness. -/
def fullEntry : Entry :=
  { front_matter :=
      { id := ⟨"ab123456"⟩, title := "Test Note", type := .q_and_a,
        tags := [⟨"python"⟩, ⟨"testing"⟩], created := ⟨2025, 1, 15⟩,
        updated := some ⟨2025, 2, 20⟩, status := some .reviewed,
        difficulty := some "easy", author := some "alice",
        related := some [⟨"zz999999"⟩],
        source := some [("url", "https://example.com")] },
    body := "body text" }

/-- Witness for the amended C3 at a concrete fully populated entry. -/
theorem parse_serialize_roundtrip_witness :
    parse_front_matter (serialize_entry fullEntry).1 =
      .ok fullEntry.front_matter :=
  parse_serialize_roundtrip fullEntry (by decide) (by decide)

/-- C4: resolution maps a malformed raw ID and a well-formed ID whose
canonical file is absent to the SAME `EntryNotFoundError`; when the
canonical file exists and parses, the parsed Entry from that path is
returned. -/
theorem resolve_entry_spec (fs : FS) (raw : String) :
    (EntryId.make raw = none →
      resolve_entry fs raw = .error (.entryNotFound raw)) ∧
    (∀ i, EntryId.make raw = some i → lookupStr (entry_path i) fs = none →
      resolve_entry fs raw = .error (.entryNotFound raw)) ∧
    (∀ i fd e, EntryId.make raw = some i →
      lookupStr (entry_path i) fs = some fd →
      parse_entry (entry_path i) fd = .ok e →
      resolve_entry fs raw = .ok e) := by
  refine ⟨?_, ?_, ?_⟩
  · intro h
    simp [resolve_entry, h]
  · intro i hmk hlk
    simp [resolve_entry, hmk, hlk]
  · intro i fd e hmk hlk hpe
    simp [resolve_entry, hmk, hlk, hpe]

/-- Witness for C4: all three cases at concrete inputs. -/
theorem resolve_entry_spec_witness :
    resolve_entry [] "!!" = .error (.entryNotFound "!!") ∧
    resolve_entry [] "ab123456" = .error (.entryNotFound "ab123456") ∧
    resolve_entry [("entries/ab/ab123456.md", serialize_entry fullEntry)]
        "ab123456" =
      .ok { fullEntry with source_path := some "entries/ab/ab123456.md" } :=
  ⟨(resolve_entry_spec [] "!!").1 (by decide),
   (resolve_entry_spec [] "ab123456").2.1 ⟨"ab123456"⟩ (by decide) (by decide),
   (resolve_entry_spec [("entries/ab/ab123456.md", serialize_entry fullEntry)]
       "ab123456").2.2 ⟨"ab123456"⟩ (serialize_entry fullEntry)
     { fullEntry with source_path := some "entries/ab/ab123456.md" }
     (by decide) (by decide) (by decide)⟩

/-- The concrete entry of the C1 scenario (type note, title "Test Note",
tag "test") with a fixed valid ID. -/
def noteEntry : Entry :=
  { front_matter :=
      { id := ⟨"ab123456"⟩, title := "Test Note", type := .note,
        tags := [⟨"test"⟩], created := ⟨2025, 1, 15⟩,
        status := some .draft },
    body := get_template .note }

/-- C1: the claim says the file is written at
`entries/<prefix>/<id>-test-note.md` (title slug in the filename), but
`entry_path` is `entries/<prefix>/<id>.md` — no slug — so `save_entry`
writes `entries/ab/ab123456.md` and nothing exists at the slugged path. -/
theorem save_entry_path_unslugged :
    (save_entry [] noteEntry).2 = "entries/ab/ab123456.md" ∧
    (save_entry [] noteEntry).2 ≠ "entries/ab/ab123456-test-note.md" ∧
    lookupStr "entries/ab/ab123456-test-note.md" (save_entry [] noteEntry).1 =
      none := by decide

/-- C1 (amended): the scenario as the code behaves — creating an entry of
type note, title "Test Note", tag "test" yields an 8-character base36 ID;
`save_entry` writes it at `entries/<prefix>/<id>.md` (no title slug in the
filename); and `resolve_entry` on that ID afterwards returns an Entry
whose front-matter title is "Test Note". -/
theorem create_save_resolve_scenario (n : Nat) (today : PyDate) (fs : FS)
    (hn : n < 2 ^ 40) (htoday : validDate today = true) :
    ∃ e, create_entry n .note "Test Note" ["test"] today none = some e ∧
      e.front_matter.id.value.length = 8 ∧
      e.front_matter.id.value.data.all base36Char = true ∧
      (save_entry fs e).2 =
        "entries/" ++ e.front_matter.id.shard ++ "/" ++
          e.front_matter.id.value ++ ".md" ∧
      ∃ e', resolve_entry (save_entry fs e).1 e.front_matter.id.value =
          .ok e' ∧ e'.front_matter.title = "Test Note" := by
  obtain ⟨i, hgen, hlen, hall⟩ := generate_id_spec n hn
  have hre : base36Re i.value = true := by
    simp only [base36Re, Bool.and_eq_true]
    exact ⟨⟨by simp [hlen], by simp [hlen]⟩, hall⟩
  have hmt : makeTags ["test"] = some [(⟨"test"⟩ : Tag)] := by decide
  have hcre : create_entry n .note "Test Note" ["test"] today none =
      some { front_matter :=
              { id := i, title := "Test Note", type := .note,
                tags := [⟨"test"⟩], created := today,
                status := some .draft, author := none },
             body := get_template .note } := by
    unfold create_entry
    rw [hgen, hmt]
    rfl
  refine ⟨_, hcre, hlen, hall, rfl, ?_⟩
  have hv : fmValid
      { id := i, title := "Test Note", type := .note, tags := [⟨"test"⟩],
        created := today, status := some .draft, author := none } = true := by
    simp only [fmValid, Bool.and_eq_true]
    exact ⟨⟨⟨⟨⟨hre, by decide⟩, by decide⟩, htoday⟩, trivial⟩, trivial⟩
  have hrel :
      ({ id := i, title := "Test Note", type := .note, tags := [⟨"test"⟩],
         created := today, status := some .draft, author := none } :
        EntryFrontMatter).related ≠ some [] := by
    simp
  refine ⟨⟨⟨i, "Test Note", .note, [⟨"test"⟩], today, none, some .draft,
    none, none, none, none⟩, get_template .note, some (entry_path i)⟩,
    ?_, rfl⟩
  unfold resolve_entry save_entry fsWrite
  rw [EntryId.make_of_base36 hre]
  dsimp only
  rw [lookupStr_cons_eq]
  unfold parse_entry serialize_entry
  dsimp only
  rw [parse_serialize_fm hv hrel]

/-- Witness for the amended C1 at a concrete random draw and date. -/
theorem create_save_resolve_scenario_witness :
    ∃ e, create_entry 0 .note "Test Note" ["test"] ⟨2025, 1, 15⟩ none =
        some e ∧
      e.front_matter.id.value.length = 8 ∧
      e.front_matter.id.value.data.all base36Char = true ∧
      (save_entry [] e).2 =
        "entries/" ++ e.front_matter.id.shard ++ "/" ++
          e.front_matter.id.value ++ ".md" ∧
      ∃ e', resolve_entry (save_entry [] e).1 e.front_matter.id.value =
          .ok e' ∧ e'.front_matter.title = "Test Note" :=
  create_save_resolve_scenario 0 ⟨2025, 1, 15⟩ [] (by norm_num) (by decide)

/-! ### Validation report invariants (C10) -/

/-- Number of issues at a given severity level. -/
def countLevel (lv : String) (issues : List ValidationIssue) : Nat :=
  (issues.filter (fun i => decide (i.level = lv))).length

/-- The counters of a report agree with its issue list, and every issue
carries one of the two levels. -/
def reportInv (r : ValidationReport) : Prop :=
  r.errors = countLevel "error" r.issues ∧
  r.warnings = countLevel "warning" r.issues ∧
  ∀ i ∈ r.issues, i.level = "error" ∨ i.level = "warning"

theorem countLevel_append (lv : String) (l1 l2 : List ValidationIssue) :
    countLevel lv (l1 ++ l2) = countLevel lv l1 + countLevel lv l2 := by
  simp [countLevel, List.filter_append]

theorem reportInv_add_error {r : ValidationReport} (h : reportInv r)
    (f m : String) : reportInv (r.add_error f m) := by
  obtain ⟨he, hw, hm⟩ := h
  refine ⟨?_, ?_, ?_⟩
  · simp [ValidationReport.add_error, countLevel_append, he, countLevel]
  · simp [ValidationReport.add_error, countLevel_append, hw, countLevel]
  · intro i hi
    simp only [ValidationReport.add_error, List.mem_append,
      List.mem_singleton] at hi
    rcases hi with hi | hi
    · exact hm i hi
    · subst hi
      exact Or.inl rfl

theorem reportInv_add_warning {r : ValidationReport} (h : reportInv r)
    (f m : String) : reportInv (r.add_warning f m) := by
  obtain ⟨he, hw, hm⟩ := h
  refine ⟨?_, ?_, ?_⟩
  · simp [ValidationReport.add_warning, countLevel_append, he, countLevel]
  · simp [ValidationReport.add_warning, countLevel_append, hw, countLevel]
  · intro i hi
    simp only [ValidationReport.add_warning, List.mem_append,
      List.mem_singleton] at hi
    rcases hi with hi | hi
    · exact hm i hi
    · subst hi
      exact Or.inr rfl

theorem reportInv_bump {r : ValidationReport} (h : reportInv r) (n : Nat) :
    reportInv { r with entries_checked := n } := h

theorem foldl_preserve {α β : Type} (P : α → Prop) (step : α → β → α)
    (h : ∀ a b, P a → P (step a b)) :
    ∀ (l : List β) (a : α), P a → P (l.foldl step a) := by
  intro l
  induction l with
  | nil => intro a ha; exact ha
  | cons b t ih => intro a ha; exact ih _ (h a b ha)

theorem reportInv_checkFile (acc : ValidationReport × List (String × EntryFrontMatter))
    (f : RFile) (h : reportInv acc.1) : reportInv (checkFile acc f).1 := by
  unfold checkFile
  have h1 : reportInv { acc.1 with entries_checked := acc.1.entries_checked + 1 } :=
    reportInv_bump h _
  split
  · exact reportInv_add_error h1 _ _
  · dsimp only
    split
    · split
      · exact reportInv_add_error (reportInv_add_error h1 _ _) _ _
      · exact reportInv_add_error h1 _ _
    · split
      · exact reportInv_add_error h1 _ _
      · exact h1

theorem reportInv_scan (files : List RFile)
    (acc : ValidationReport × List (String × EntryFrontMatter))
    (h : reportInv acc.1) : reportInv (files.foldl checkFile acc).1 := by
  induction files generalizing acc with
  | nil => exact h
  | cons f rest ih => exact ih _ (reportInv_checkFile acc f h)

theorem reportInv_dupPass (es : List (String × EntryFrontMatter))
    (seen : List (String × String)) (r : ValidationReport)
    (h : reportInv r) : reportInv (dupPass es seen r).1 := by
  induction es generalizing seen r with
  | nil => exact h
  | cons p rest ih =>
    obtain ⟨rel, fm⟩ := p
    unfold dupPass
    split
    · exact ih _ _ (reportInv_add_error h _ _)
    · exact ih _ _ h

theorem reportInv_relatedPass (seen : List (String × String))
    (es : List (String × EntryFrontMatter)) (r : ValidationReport)
    (h : reportInv r) : reportInv (relatedPass seen es r) := by
  induction es generalizing r with
  | nil => exact h
  | cons p rest ih =>
    obtain ⟨rel, fm⟩ := p
    unfold relatedPass
    apply ih
    cases fm.related with
    | none => exact h
    | some l =>
      dsimp only
      split
      · exact h
      · apply foldl_preserve reportInv _ _ l r h
        intro a b ha
        split
        · exact reportInv_add_error ha _ _
        · exact ha

theorem reportInv_warnPass (today : PyDate)
    (es : List (String × EntryFrontMatter)) (r : ValidationReport)
    (h : reportInv r) : reportInv (warnPass today es r) := by
  induction es generalizing r with
  | nil => exact h
  | cons p rest ih =>
    obtain ⟨rel, fm⟩ := p
    unfold warnPass
    apply ih
    split
    · split
      · exact reportInv_add_warning (reportInv_add_warning h _ _) _ _
      · exact reportInv_add_warning h _ _
    · split
      · exact reportInv_add_warning h _ _
      · exact h

theorem reportInv_validate (files : List RFile) (today : PyDate) :
    reportInv (validate_repo files today) := by
  unfold validate_repo
  exact reportInv_warnPass _ _ _
    (reportInv_relatedPass _ _ _
      (reportInv_dupPass _ _ _
        (reportInv_scan files ({}, []) (by exact ⟨rfl, rfl, by simp⟩))))

theorem is_clean_iff {r : ValidationReport} (h : reportInv r) :
    r.is_clean = true ↔ r.issues = [] := by
  obtain ⟨he, hw, hm⟩ := h
  unfold ValidationReport.is_clean
  simp only [Bool.and_eq_true, decide_eq_true_eq]
  constructor
  · rintro ⟨h0, h1⟩
    cases hi : r.issues with
    | nil => rfl
    | cons i t =>
      exfalso
      rcases hm i (by simp [hi]) with hlev | hlev
      · rw [he, hi] at h0
        simp [countLevel, hlev] at h0
      · rw [hw, hi] at h1
        simp [countLevel, hlev] at h1
  · intro h0
    rw [he, hw, h0]
    simp [countLevel]

/-- C10: in every report produced by `validate_repo`, the `errors` counter
equals the number of error-level issues, the `warnings` counter equals the
number of warning-level issues, and `is_clean` holds exactly when the
issue list is empty (equivalently, no error-level and no warning-level
issues exist). -/
theorem validate_report_counts (files : List RFile) (today : PyDate) :
    (validate_repo files today).errors =
      countLevel "error" (validate_repo files today).issues ∧
    (validate_repo files today).warnings =
      countLevel "warning" (validate_repo files today).issues ∧
    ((validate_repo files today).is_clean = true ↔
      (validate_repo files today).issues = []) := by
  obtain ⟨he, hw, hm⟩ := reportInv_validate files today
  exact ⟨he, hw, is_clean_iff ⟨he, hw, hm⟩⟩

/-! ### Slug refinement and filename convention (C6) -/

theorem splitAux_words_ne : ∀ (l cur w : List Char), w ∈ splitAux cur l → w ≠ [] := by
  intro l
  induction l with
  | nil =>
    intro cur w hw
    unfold splitAux at hw
    split at hw
    · cases hw
    · rename_i hcur
      rw [List.mem_singleton] at hw
      subst hw
      have : cur ≠ [] := by
        intro h
        subst h
        simp at hcur
      simpa using this
  | cons c rest ih =>
    intro cur w hw
    unfold splitAux at hw
    split at hw
    · split at hw
      · exact ih [] w hw
      · rename_i hcur
        rcases List.mem_cons.mp hw with h | h
        · subst h
          have : cur ≠ [] := by
            intro h'
            subst h'
            simp at hcur
          simpa using this
        · exact ih [] w h
    · exact ih (c :: cur) w hw

theorem joinHyphen_ne_nil : ∀ ws : List (List Char), ws ≠ [] →
    (∀ w ∈ ws, w ≠ []) → joinHyphen ws ≠ [] := by
  intro ws
  match ws with
  | [] => intro h _; exact absurd rfl h
  | [w] =>
    intro _ hw
    simpa [joinHyphen] using hw w (by simp)
  | w :: v :: rest =>
    intro _ _
    simp [joinHyphen]

/-- The validator's slug/filename computation coincides with the
specification's description of it. -/
theorem expected_filename_eq_spec (idv title : String) :
    expected_filename idv title = spec_expected_filename idv title := by
  unfold expected_filename spec_expected_filename slugOf
  cases hw : (pySplit (title.data.filter keepCh)).take 8 with
  | nil => simp [joinHyphen]
  | cons w rest =>
    have hne : ∀ x ∈ w :: rest, x ≠ [] := by
      intro x hx
      have hx' : x ∈ pySplit (title.data.filter keepCh) :=
        List.take_subset 8 _ (hw ▸ hx)
      exact splitAux_words_ne _ [] x hx'
    have hfilter : List.filter (fun x => !x.isEmpty) (w :: rest) = w :: rest := by
      rw [List.filter_eq_self]
      intro a ha
      simpa using hne a ha
    dsimp only
    rw [hfilter]
    have hmapne : ∀ x ∈ (w :: rest).map (fun x => x.map lowerChar), x ≠ [] := by
      intro x hx
      obtain ⟨y, hy, rfl⟩ := List.mem_map.mp hx
      simp only [ne_eq, List.map_eq_nil_iff]
      exact hne y hy
    have hj : joinHyphen ((w :: rest).map (fun x => x.map lowerChar)) ≠ [] :=
      joinHyphen_ne_nil _ (by simp) hmapne
    rw [if_neg (by simpa using hj), if_neg (by simp)]

theorem add_error_mem {r : ValidationReport} {i : ValidationIssue}
    (h : i ∈ r.issues) (f m : String) : i ∈ (r.add_error f m).issues := by
  simp only [ValidationReport.add_error, List.mem_append]
  exact Or.inl h

theorem add_warning_mem {r : ValidationReport} {i : ValidationIssue}
    (h : i ∈ r.issues) (f m : String) : i ∈ (r.add_warning f m).issues := by
  simp only [ValidationReport.add_warning, List.mem_append]
  exact Or.inl h

theorem checkFile_mem (acc : ValidationReport × List (String × EntryFrontMatter))
    (f : RFile) {i : ValidationIssue} (h : i ∈ acc.1.issues) :
    i ∈ (checkFile acc f).1.issues := by
  unfold checkFile
  split
  · exact add_error_mem h _ _
  · dsimp only
    split
    · split
      · exact add_error_mem (add_error_mem h _ _) _ _
      · exact add_error_mem h _ _
    · split
      · exact add_error_mem h _ _
      · exact h

theorem scan_mem (files : List RFile)
    (acc : ValidationReport × List (String × EntryFrontMatter))
    {i : ValidationIssue} (h : i ∈ acc.1.issues) :
    i ∈ (files.foldl checkFile acc).1.issues := by
  induction files generalizing acc with
  | nil => exact h
  | cons g rest ih => exact ih _ (checkFile_mem acc g h)

theorem dupPass_mem (es : List (String × EntryFrontMatter))
    (seen : List (String × String)) (r : ValidationReport)
    {i : ValidationIssue} (h : i ∈ r.issues) :
    i ∈ (dupPass es seen r).1.issues := by
  induction es generalizing seen r with
  | nil => exact h
  | cons p rest ih =>
    obtain ⟨rel, fm⟩ := p
    unfold dupPass
    split
    · exact ih _ _ (add_error_mem h _ _)
    · exact ih _ _ h

theorem relatedPass_mem (seen : List (String × String))
    (es : List (String × EntryFrontMatter)) (r : ValidationReport)
    {i : ValidationIssue} (h : i ∈ r.issues) :
    i ∈ (relatedPass seen es r).issues := by
  induction es generalizing r with
  | nil => exact h
  | cons p rest ih =>
    obtain ⟨rel, fm⟩ := p
    unfold relatedPass
    apply ih
    cases fm.related with
    | none => exact h
    | some l =>
      dsimp only
      split
      · exact h
      · apply foldl_preserve (fun rr => i ∈ rr.issues) _ _ l r h
        intro a b ha
        split
        · exact add_error_mem ha _ _
        · exact ha

theorem warnPass_mem (today : PyDate)
    (es : List (String × EntryFrontMatter)) (r : ValidationReport)
    {i : ValidationIssue} (h : i ∈ r.issues) :
    i ∈ (warnPass today es r).issues := by
  induction es generalizing r with
  | nil => exact h
  | cons p rest ih =>
    obtain ⟨rel, fm⟩ := p
    unfold warnPass
    apply ih
    split
    · split
      · exact add_warning_mem (add_warning_mem h _ _) _ _
      · exact add_warning_mem h _ _
    · split
      · exact add_warning_mem h _ _
      · exact h

theorem scan_filename_issue : ∀ (files : List RFile)
    (acc : ValidationReport × List (String × EntryFrontMatter))
    (f : RFile) (fm : EntryFrontMatter), f ∈ files →
    parse_rfile f = .ok fm →
    f.name ≠ expected_filename fm.id.value fm.title →
    (⟨"error", f.relPath, filenameMsg f.name fm.id.value⟩ : ValidationIssue) ∈
      (files.foldl checkFile acc).1.issues := by
  intro files
  induction files with
  | nil => intro acc f fm hf; cases hf
  | cons g rest ih =>
    intro acc f fm hf hok hne
    rcases List.mem_cons.mp hf with heq | hf'
    · subst heq
      apply scan_mem rest
      unfold checkFile
      rw [hok]
      dsimp only
      rw [if_pos hne]
      split
      · exact add_error_mem (by simp [ValidationReport.add_error]) _ _
      · simp [ValidationReport.add_error]
    · exact ih _ f fm hf' hok hne

/-- C6: the validator's expected filename is exactly the
specification's `<id>-<slug>.md` computation (strip to letters, digits,
whitespace; split; first 8 words; lowercase; hyphen-join; bare `<id>.md`
when no words survive), and every parsed file whose actual name differs
from it yields an error-severity issue for that file. -/
theorem validate_filename_convention (files : List RFile) (today : PyDate) :
    (∀ idv title, expected_filename idv title = spec_expected_filename idv title) ∧
    (∀ f ∈ files, ∀ fm, parse_rfile f = .ok fm →
      f.name ≠ expected_filename fm.id.value fm.title →
      ∃ i ∈ (validate_repo files today).issues, i.level = "error" ∧
        i.file = f.relPath ∧ i.message = filenameMsg f.name fm.id.value) := by
  refine ⟨fun idv title => expected_filename_eq_spec idv title, ?_⟩
  intro f hf fm hok hne
  refine ⟨⟨"error", f.relPath, filenameMsg f.name fm.id.value⟩, ?_, rfl, rfl, rfl⟩
  unfold validate_repo
  dsimp only
  exact warnPass_mem _ _ _
    (relatedPass_mem _ _ _
      (dupPass_mem _ _ _
        (scan_filename_issue files ({}, []) f fm hf hok hne)))

/-! ### Duplicate-ID pass (C7) -/

/-- The location recorded for the first occurrence of an ID: the
`seen_ids` map first, then the first matching earlier entry. -/
def firstLocFrom (seen : List (String × String))
    (pre : List (String × EntryFrontMatter)) (idv : String) : Option String :=
  match lookupStr idv seen with
  | some l => some l
  | none =>
    (pre.find? (fun p => decide (p.2.id.value = idv))).map (fun p => p.1)

theorem dup_emits : ∀ (pre : List (String × EntryFrontMatter))
    (seen : List (String × String)) (r : ValidationReport) (rel : String)
    (fm : EntryFrontMatter) (post : List (String × EntryFrontMatter))
    (loc : String),
    firstLocFrom seen pre fm.id.value = some loc →
    (⟨"error", rel, dupMsg fm.id.value loc⟩ : ValidationIssue) ∈
      (dupPass (pre ++ (rel, fm) :: post) seen r).1.issues := by
  intro pre
  induction pre with
  | nil =>
    intro seen r rel fm post loc hloc
    unfold firstLocFrom at hloc
    cases hls : lookupStr fm.id.value seen with
    | none =>
      rw [hls] at hloc
      simp at hloc
    | some l =>
      rw [hls] at hloc
      simp only [Option.some.injEq] at hloc
      subst hloc
      simp only [List.nil_append]
      unfold dupPass
      rw [hls]
      exact dupPass_mem _ _ _ (by simp [ValidationReport.add_error])
  | cons q pre' ih =>
    intro seen r rel fm post loc hloc
    obtain ⟨rel0, fm0⟩ := q
    simp only [List.cons_append]
    unfold dupPass
    cases hls0 : lookupStr fm0.id.value seen with
    | some f0 =>
      dsimp only
      apply ih seen _ rel fm post loc
      unfold firstLocFrom at hloc ⊢
      cases hls : lookupStr fm.id.value seen with
      | some l =>
        rw [hls] at hloc
        exact hloc
      | none =>
        rw [hls] at hloc
        dsimp only at hloc ⊢
        rw [List.find?_cons] at hloc
        cases hpred : decide (fm0.id.value = fm.id.value) with
        | true =>
          exfalso
          have heq : fm0.id.value = fm.id.value := of_decide_eq_true hpred
          rw [heq, hls] at hls0
          exact Option.noConfusion hls0
        | false =>
          rw [hpred] at hloc
          exact hloc
    | none =>
      dsimp only
      apply ih (seen ++ [(fm0.id.value, rel0)]) r rel fm post loc
      unfold firstLocFrom at hloc ⊢
      cases hls : lookupStr fm.id.value seen with
      | some l =>
        rw [hls] at hloc
        have hl2 : lookupStr fm.id.value (seen ++ [(fm0.id.value, rel0)]) =
            some l := by
          rw [lookupStr_append, hls]
        rw [hl2]
        exact hloc
      | none =>
        rw [hls] at hloc
        dsimp only at hloc
        rw [List.find?_cons] at hloc
        cases hpred : decide (fm0.id.value = fm.id.value) with
        | true =>
          rw [hpred] at hloc
          have hlr : some rel0 = some loc := by simpa using hloc
          have heq : fm0.id.value = fm.id.value := of_decide_eq_true hpred
          have hl2 : lookupStr fm.id.value (seen ++ [(fm0.id.value, rel0)]) =
              some rel0 := by
            rw [lookupStr_append, hls, heq]
            simp [lookupStr]
          rw [hl2]
          exact hlr
        | false =>
          rw [hpred] at hloc
          have hne : ¬(fm0.id.value = fm.id.value) := of_decide_eq_false hpred
          have hl2 : lookupStr fm.id.value (seen ++ [(fm0.id.value, rel0)]) =
              none := by
            rw [lookupStr_append, hls]
            simp [lookupStr, hne]
          rw [hl2]
          exact hloc

theorem dupPass_distinct : ∀ (es : List (String × EntryFrontMatter))
    (seen : List (String × String)) (r : ValidationReport),
    es.Pairwise (fun a b => a.2.id.value ≠ b.2.id.value) →
    (∀ p ∈ es, lookupStr p.2.id.value seen = none) →
    (dupPass es seen r).1 = r := by
  intro es
  induction es with
  | nil => intro seen r _ _; rfl
  | cons q rest ih =>
    intro seen r hpw hseen
    obtain ⟨rel0, fm0⟩ := q
    unfold dupPass
    rw [hseen (rel0, fm0) (by simp)]
    dsimp only
    apply ih
    · exact (List.pairwise_cons.mp hpw).2
    · intro p hp
      rw [lookupStr_append, hseen p (by simp [hp])]
      have hne := (List.pairwise_cons.mp hpw).1 p hp
      simp [lookupStr, hne]

/-! ### No non-duplicate message starts with "Duplicate ID " -/

theorem str_append_assoc (a b c : String) : a ++ b ++ c = a ++ (b ++ c) := by
  cases a with
  | mk x =>
    cases b with
    | mk y =>
      cases c with
      | mk z => exact congrArg String.mk (List.append_assoc x y z)

theorem notdup_prefix (q r : String)
    (h1 : leadsWith "Duplicate ID ".data q.data = false)
    (h2 : leadsWith q.data "Duplicate ID ".data = false) :
    strStarts "Duplicate ID " (q ++ r) = false := by
  unfold strStarts
  rw [str_data_append]
  exact leadsWith_append_false _ h1 h2

theorem notdup_filenameMsg (a b : String) :
    strStarts "Duplicate ID " (filenameMsg a b) = false := by
  unfold filenameMsg
  simp only [str_append_assoc]
  exact notdup_prefix _ _ (by decide) (by decide)

theorem notdup_directoryMsg (a b : String) :
    strStarts "Duplicate ID " (directoryMsg a b) = false := by
  unfold directoryMsg
  simp only [str_append_assoc]
  exact notdup_prefix _ _ (by decide) (by decide)

theorem notdup_relatedMsg (a : String) :
    strStarts "Duplicate ID " (relatedMsg a) = false := by
  unfold relatedMsg
  simp only [str_append_assoc]
  exact notdup_prefix _ _ (by decide) (by decide)

theorem notdup_draftMsg (age : Int) :
    strStarts "Duplicate ID " (draftMsg age) = false := by
  unfold draftMsg
  simp only [str_append_assoc]
  exact notdup_prefix _ _ (by decide) (by decide)

theorem notdup_staleMsg (age : Int) :
    strStarts "Duplicate ID " (staleMsg age) = false := by
  unfold staleMsg
  simp only [str_append_assoc]
  exact notdup_prefix _ _ (by decide) (by decide)

theorem parse_rfile_error_shape {f : RFile} {reason : String}
    (h : parse_rfile f = .error reason) :
    reason = "Failed to read" ∨
      ∃ r', reason = "Invalid front matter: " ++ r' := by
  unfold parse_rfile at h
  cases hd : f.data with
  | none =>
    rw [hd] at h
    cases h
    exact Or.inl rfl
  | some fd =>
    rw [hd] at h
    obtain ⟨md, body⟩ := fd
    dsimp only at h
    cases hp : parse_front_matter md with
    | error r' =>
      rw [hp] at h
      cases h
      exact Or.inr ⟨r', rfl⟩
    | ok fm =>
      rw [hp] at h
      cases h

theorem notdup_reason {f : RFile} {reason : String}
    (h : parse_rfile f = .error reason) :
    strStarts "Duplicate ID " reason = false := by
  rcases parse_rfile_error_shape h with h' | ⟨r', h'⟩
  · subst h'
    decide
  · subst h'
    exact notdup_prefix _ _ (by decide) (by decide)

/-- No issue in a report starts with the duplicate-ID message. -/
def noDupMsgs (r : ValidationReport) : Prop :=
  ∀ i ∈ r.issues, strStarts "Duplicate ID " i.message = false

theorem noDup_add_error {r : ValidationReport} (h : noDupMsgs r)
    {m : String} (f : String) (hm : strStarts "Duplicate ID " m = false) :
    noDupMsgs (r.add_error f m) := by
  intro i hi
  simp only [ValidationReport.add_error, List.mem_append,
    List.mem_singleton] at hi
  rcases hi with hi | hi
  · exact h i hi
  · subst hi
    exact hm

theorem noDup_add_warning {r : ValidationReport} (h : noDupMsgs r)
    {m : String} (f : String) (hm : strStarts "Duplicate ID " m = false) :
    noDupMsgs (r.add_warning f m) := by
  intro i hi
  simp only [ValidationReport.add_warning, List.mem_append,
    List.mem_singleton] at hi
  rcases hi with hi | hi
  · exact h i hi
  · subst hi
    exact hm

theorem noDup_checkFile (acc : ValidationReport × List (String × EntryFrontMatter))
    (f : RFile) (h : noDupMsgs acc.1) : noDupMsgs (checkFile acc f).1 := by
  unfold checkFile
  have h1 : noDupMsgs { acc.1 with entries_checked := acc.1.entries_checked + 1 } := h
  split
  · rename_i reason hr
    exact noDup_add_error h1 _ (notdup_reason hr)
  · dsimp only
    split
    · split
      · exact noDup_add_error (noDup_add_error h1 _ (notdup_filenameMsg _ _)) _
          (notdup_directoryMsg _ _)
      · exact noDup_add_error h1 _ (notdup_directoryMsg _ _)
    · split
      · exact noDup_add_error h1 _ (notdup_filenameMsg _ _)
      · exact h1

theorem noDup_scan (files : List RFile)
    (acc : ValidationReport × List (String × EntryFrontMatter))
    (h : noDupMsgs acc.1) : noDupMsgs (files.foldl checkFile acc).1 := by
  induction files generalizing acc with
  | nil => exact h
  | cons g rest ih => exact ih _ (noDup_checkFile acc g h)

theorem noDup_relatedPass (seen : List (String × String))
    (es : List (String × EntryFrontMatter)) (r : ValidationReport)
    (h : noDupMsgs r) : noDupMsgs (relatedPass seen es r) := by
  induction es generalizing r with
  | nil => exact h
  | cons p rest ih =>
    obtain ⟨rel, fm⟩ := p
    unfold relatedPass
    apply ih
    cases fm.related with
    | none => exact h
    | some l =>
      dsimp only
      split
      · exact h
      · apply foldl_preserve noDupMsgs _ _ l r h
        intro a b ha
        split
        · exact noDup_add_error ha _ (notdup_relatedMsg _)
        · exact ha

theorem noDup_warnPass (today : PyDate)
    (es : List (String × EntryFrontMatter)) (r : ValidationReport)
    (h : noDupMsgs r) : noDupMsgs (warnPass today es r) := by
  induction es generalizing r with
  | nil => exact h
  | cons p rest ih =>
    obtain ⟨rel, fm⟩ := p
    unfold warnPass
    apply ih
    split
    · split
      · exact noDup_add_warning (noDup_add_warning h _ (notdup_draftMsg _)) _
          (notdup_staleMsg _)
      · exact noDup_add_warning h _ (notdup_staleMsg _)
    · split
      · exact noDup_add_warning h _ (notdup_draftMsg _)
      · exact h

/-- C7: for every later occurrence of an already-seen ID among the parsed
entries, validation reports an error-severity issue at that occurrence's
location whose message is the duplicate-ID message naming the FIRST
occurrence's location; and when all parsed entries have pairwise distinct
IDs, no issue of the report carries a duplicate-ID message. -/
theorem validate_duplicate_ids (files : List RFile) (today : PyDate) :
    (∀ (pre : List (String × EntryFrontMatter)) (rel : String)
       (fm : EntryFrontMatter) (post : List (String × EntryFrontMatter))
       (q : String × EntryFrontMatter),
      collectEntries files = pre ++ (rel, fm) :: post →
      pre.find? (fun p => decide (p.2.id.value = fm.id.value)) = some q →
      (⟨"error", rel, dupMsg fm.id.value q.1⟩ : ValidationIssue) ∈
        (validate_repo files today).issues) ∧
    ((collectEntries files).Pairwise (fun a b => a.2.id.value ≠ b.2.id.value) →
      ∀ i ∈ (validate_repo files today).issues,
        strStarts "Duplicate ID " i.message = false) := by
  constructor
  · intro pre rel fm post q hdecomp hfind
    unfold validate_repo
    dsimp only
    apply warnPass_mem
    apply relatedPass_mem
    have hscan2 : (files.foldl checkFile ({}, [])).2 =
        pre ++ (rel, fm) :: post := hdecomp
    rw [hscan2]
    apply dup_emits
    unfold firstLocFrom
    rw [hfind]
    rfl
  · intro hpw i hi
    have hdup : (dupPass (files.foldl checkFile ({}, [])).2 []
        (files.foldl checkFile ({}, [])).1).1 =
        (files.foldl checkFile ({}, [])).1 := by
      apply dupPass_distinct _ _ _ hpw
      intro p _
      rfl
    have h3 : noDupMsgs (validate_repo files today) := by
      unfold validate_repo
      dsimp only
      apply noDup_warnPass
      apply noDup_relatedPass
      rw [hdup]
      exact noDup_scan files ({}, []) (by intro i hi'; cases hi')
    exact h3 i hi

/-- Two entry files sharing the ID `ab123456`, for the C7 witness. -/
def dupFm1 : EntryFrontMatter := { noteEntry.front_matter with title := "First" }

/-- Second front matter with the same ID. -/
def dupFm2 : EntryFrontMatter := { noteEntry.front_matter with title := "Dup" }

/-- First file of the duplicate pair. -/
def dupFile1 : RFile :=
  ⟨"entries/ab/ab123456-first.md", "ab123456-first.md", "ab",
   some (entryMetadata dupFm1, "b")⟩

/-- Second file of the duplicate pair. -/
def dupFile2 : RFile :=
  ⟨"entries/ab/ab123456-dup.md", "ab123456-dup.md", "ab",
   some (entryMetadata dupFm2, "b")⟩

/-- Witness for C7 at a concrete repository with a duplicated ID. -/
theorem validate_duplicate_ids_witness :
    (⟨"error", "entries/ab/ab123456-dup.md",
       dupMsg "ab123456" "entries/ab/ab123456-first.md"⟩ : ValidationIssue) ∈
      (validate_repo [dupFile1, dupFile2] ⟨2025, 1, 20⟩).issues :=
  (validate_duplicate_ids [dupFile1, dupFile2] ⟨2025, 1, 20⟩).1
    [("entries/ab/ab123456-first.md", dupFm1)] "entries/ab/ab123456-dup.md"
    dupFm2 [] ("entries/ab/ab123456-first.md", dupFm1)
    (by decide) (by decide)

/-- A misnamed entry file used as the C6 witness. -/
def misnamedFile : RFile :=
  ⟨"entries/ab/wrongname.md", "wrongname.md", "ab",
   some (entryMetadata noteEntry.front_matter, "b")⟩

/-- Witness for C6 at a concrete misnamed file. -/
theorem validate_filename_convention_witness :
    ∃ i ∈ (validate_repo [misnamedFile] ⟨2025, 1, 20⟩).issues,
      i.level = "error" ∧ i.file = "entries/ab/wrongname.md" ∧
      i.message = filenameMsg "wrongname.md" "ab123456" :=
  (validate_filename_convention [misnamedFile] ⟨2025, 1, 20⟩).2 misnamedFile
    (by decide) noteEntry.front_matter (by decide) (by decide)

/-- C5: re-running `init` (with any name) on the state produced by a
first `init` changes nothing: config and README are written only when
absent, and the ignore rule is appended only when not already present —
and a first `init` always leaves the ignore rule present. -/
theorem init_idempotent (s : InitState) (name name' : String) :
    KnowledgeRepo.init name' (KnowledgeRepo.init name s) =
      KnowledgeRepo.init name s := by
  have fix : ∀ t : InitState, (∃ c, t.config = some c) →
      (∃ r, t.readme = some r) →
      (∃ g, t.gitignore = some g ∧ strContains g INDEX_RULE = true) →
      KnowledgeRepo.init name' t = t := by
    rintro t ⟨c, hc⟩ ⟨r, hr⟩ ⟨g, hg, hcon⟩
    unfold KnowledgeRepo.init
    rw [hc, hg, hr]
    simp only [if_pos hcon]
    cases t
    simp only [] at hc hr hg
    rw [hc, hr, hg]
  have hconf : ∃ c, (KnowledgeRepo.init name s).config = some c := by
    unfold KnowledgeRepo.init
    cases s.config <;> exact ⟨_, rfl⟩
  have hread : ∃ r, (KnowledgeRepo.init name s).readme = some r := by
    unfold KnowledgeRepo.init
    cases s.readme <;> exact ⟨_, rfl⟩
  exact fix _ hconf hread (init_gitignore_contains name s)

end LKR
